import Mathlib

/-!
# Orderer server start-up: trust roots and system-channel bootstrap

A shallow embedding of `orderer/common/server/main.go` and `util.go`:
`updateTrustedRoots`, the TLS callback built in `Start`,
`initializeBootstrapChannel`, `createLedgerFactory` and
`initializeMultichannelRegistrar`.

Mutable Go objects are passed explicitly as state.  Every function returns an
`Outcome`: a normal return, a Go `panic` (`logger.Panic`) or a process exit
(`logger.Fatal`, which ends in `os.Exit(1)`).  Calls to collaborators and log
lines are recorded, in order, in a trace of `Event`s.
-/

namespace Orderer

/-! ## Go maps -/

/-- A Go `map[string]β`: finitely many entries, no key twice.  `range` visits
the entries in the order of `entries`; Go leaves that order unspecified, and
nothing proved below depends on it. -/
structure GoMap (β : Type) where
  entries : List (String × β)
  nodupKeys : (entries.map Prod.fst).Nodup

namespace GoMap

variable {β : Type}

/-- The map made by `make(map[string]β)`. -/
def empty : GoMap β := ⟨[], List.nodup_nil⟩

/-- The lookup `v, ok := m[k]`; `none` stands for `ok == false`. -/
def get (m : GoMap β) (k : String) : Option β :=
  (m.entries.find? (fun e => e.1 == k)).map Prod.snd

/-- The assignment `m[k] = v`: any entry for `k` is replaced. -/
def set (m : GoMap β) (k : String) (v : β) : GoMap β :=
  ⟨(k, v) :: m.entries.filter (fun e => e.1 != k), by
    rw [List.map_cons, List.nodup_cons]
    refine ⟨?_, (m.nodupKeys.sublist
      ((List.filter_sublist m.entries).map Prod.fst))⟩
    intro hk
    obtain ⟨e, he, hek⟩ := List.mem_map.mp hk
    have := (List.mem_filter.mp he).2
    simp [hek] at this⟩

/-- The keys of the map. -/
def keys (m : GoMap β) : List String := m.entries.map Prod.fst

end GoMap

/-! ## Data model -/

/-- A certificate, `[]byte`. -/
abbrev Cert := List Nat

/-- The type `msp.ProviderType` (a Go `int`). -/
abbrev ProviderType := Int

/-- Modelled from the spec: the constant `msp.FABRIC`, declared in package
`msp` (not among the sources at hand); it is the provider type of "the
recognized scheme".  Its numeric value plays no role below. -/
def FABRIC : ProviderType := 0

/-- An identity provider `msp.MSP`, as far as `updateTrustedRoots` reads it:
`GetType()`, `GetTLSRootCerts()`, `GetTLSIntermediateCerts()`. -/
structure MSP where
  GetType : ProviderType
  GetTLSRootCerts : List Cert
  GetTLSIntermediateCerts : List Cert
deriving DecidableEq, Repr

/-- An organization of a channel configuration (`channelconfig.Org`). -/
structure Org where
  Name : String
  MSPID : String
deriving DecidableEq, Repr

/-- A consortium (`channelconfig.Consortium`): `Organizations()` in the order
`range` visits them. -/
structure Consortium where
  Organizations : List Org
deriving DecidableEq, Repr

/-- The configuration bundle `channelconfig.Resources` as far as it is read.
The three optional parts are `none` when the accessor answers `ok == false`.
`GetMSPs` is the answer of `MSPManager().GetMSPs()`: an error, or the
key/value pairs of the provider map in the order `range` visits them. -/
structure Resources where
  ChainID : String
  ApplicationConfig : Option (List Org)
  OrdererConfig : Option (List Org)
  ConsortiumsConfig : Option (List Consortium)
  GetMSPs : Except String (List (String × MSP))

/-- The shared trust state `comm.CASupport`. -/
structure CASupport where
  AppRootCAsByChain : GoMap (List Cert)
  OrdererRootCAsByChain : GoMap (List Cert)
  ClientRootCAs : List Cert

/-- Modelled from the spec: the transport-layer server `comm.GRPCServer`,
whose implementation is not among the sources at hand.  It "reports whether
mutual-TLS is currently required" and holds the set of trusted client root
certificates currently in effect. -/
structure GRPCServer where
  mutualTLSRequired : Bool
  clientRootCAs : List Cert
deriving DecidableEq, Repr

/-- Log levels of the `logger`. -/
inductive Level where
  | Debug | Info | Warning | Error | Panic | Fatal
deriving DecidableEq, Repr

/-- A block `cb.Block`, as far as it matters here: its number and its data. -/
structure Block where
  Number : Nat
  Data : List (List Nat)
deriving DecidableEq, Repr

/-- What the code does to the outside, in the order it does it. -/
inductive Event where
  | log (level : Level) (msg : String)
  | SetClientRootCAs (roots : List Cert)
  | initializeBootstrapChannel
  | GenesisBlockForChannel (profile channel : String)
  | GenesisBlock (file : String)
  | GetOrCreate (chainID : String)
  | Append (chainID : String) (b : Block)
  | NewRegistrar
deriving DecidableEq, Repr

/-- How a call ends.  `s` is the state at that moment. -/
inductive Outcome (σ α : Type) where
  | returned (s : σ) (a : α)
  | panicked (s : σ) (msg : String)
  | exited (s : σ) (code : Nat)

/-! ## Trust roots (`updateTrustedRoots`, `Start`) -/

/-- Modelled from the spec: `comm.GRPCServer.SetClientRootCAs`, whose body is
not among the sources at hand.  The transport layer "accepts a replacement set
of trusted client root certificates at runtime"; when it rejects the list,
"the previous trust set remains in effect".  Which lists are rejected is left
open: `rejects roots` is the error, if any. -/
def GRPCServer.SetClientRootCAs (rejects : List Cert → Option String)
    (srv : GRPCServer) (clientRoots : List Cert) : GRPCServer × Option String :=
  match rejects clientRoots with
  | some err => (srv, some err)
  | none => ({ srv with clientRootCAs := clientRoots }, none)

/-- Modelled from the spec: `comm.GRPCServer.MutualTLSRequired`, which
"reports whether mutual-TLS is currently required". -/
def GRPCServer.MutualTLSRequired (srv : GRPCServer) : Bool :=
  srv.mutualTLSRequired

/-- Everything `updateTrustedRoots` can read or change. -/
structure World where
  srv : GRPCServer
  rootCASupport : CASupport
  trace : List Event

/-- A line written by the `logger`. -/
def World.log (w : World) (level : Level) (msg : String) : World :=
  { w with trace := w.trace ++ [Event.log level msg] }

/-- The loop `for _, org := range orgs { m[org.MSPID()] = struct{}{} }`. -/
def addOrgMSPs (m : GoMap Unit) (orgs : List Org) : GoMap Unit :=
  orgs.foldl (fun m org => m.set org.MSPID ()) m

/-- The set `appOrgMSPs` once lines 326-347 have run: the IDs of the
application organizations, then those of every consortium. -/
def appOrgMSPs (cm : Resources) : GoMap Unit :=
  let m : GoMap Unit :=
    match cm.ApplicationConfig with
    | some ac => addOrgMSPs GoMap.empty ac
    | none => GoMap.empty
  match cm.ConsortiumsConfig with
  | some cc => cc.foldl (fun m consortium => addOrgMSPs m consortium.Organizations) m
  | none => m

/-- The set `ordOrgMSPs` once lines 333-338 have run. -/
def ordOrgMSPs (cm : Resources) : GoMap Unit :=
  match cm.OrdererConfig with
  | some ac => addOrgMSPs GoMap.empty ac
  | none => GoMap.empty

/-- The local variables the provider loop changes. -/
structure RootAcc where
  appRootCAs : List Cert
  ordererRootCAs : List Cert
  trace : List Event

/-- One round of either inner loop (lines 359-370 and 371-382 have the same
body): the certificate goes to the lists whose ID set holds the key `k`. -/
def addCert (app ord : GoMap Unit) (k : String) (acc : RootAcc) (root : Cert) :
    RootAcc :=
  let acc : RootAcc :=
    if (app.get k).isSome then
      { acc with
          trace := acc.trace ++ [Event.log Level.Debug ("adding app root CAs for MSP [" ++ k ++ "]")]
          appRootCAs := acc.appRootCAs ++ [root] }
    else acc
  if (ord.get k).isSome then
    { acc with
        trace := acc.trace ++ [Event.log Level.Debug ("adding orderer root CAs for MSP [" ++ k ++ "]")]
        ordererRootCAs := acc.ordererRootCAs ++ [root] }
  else acc

/-- One round of the loop `for k, v := range msps` (lines 356-384). -/
def addMSP (app ord : GoMap Unit) (acc : RootAcc) (kv : String × MSP) : RootAcc :=
  if kv.2.GetType = FABRIC then
    let acc := kv.2.GetTLSRootCerts.foldl (addCert app ord kv.1) acc
    kv.2.GetTLSIntermediateCerts.foldl (addCert app ord kv.1) acc
  else acc

/-- The list `trustedRoots` of lines 389-399. -/
def trustedRoots (rootCASupport : CASupport) : List Cert :=
  let t : List Cert := []
  let t := rootCASupport.AppRootCAsByChain.entries.foldl (fun t e => t ++ e.2) t
  let t := rootCASupport.OrdererRootCAsByChain.entries.foldl (fun t e => t ++ e.2) t
  if rootCASupport.ClientRootCAs.length > 0 then t ++ rootCASupport.ClientRootCAs else t

/-- The function `updateTrustedRoots(srv, rootCASupport, cm)`.  `rejects` says
which lists `srv.SetClientRootCAs` refuses.  The lock is not modelled. -/
def updateTrustedRoots (rejects : List Cert → Option String) (w : World)
    (cm : Resources) : Outcome World Unit :=
  let app := appOrgMSPs cm
  let ord := ordOrgMSPs cm
  let cid := cm.ChainID
  let w := w.log Level.Debug ("updating root CAs for channel [" ++ cid ++ "]")
  match cm.GetMSPs with
  | Except.error err =>
    Outcome.returned
      (w.log Level.Error ("Error getting root CAs for channel " ++ cid ++ " (" ++ err ++ ")")) ()
  | Except.ok msps =>
    let acc := msps.foldl (addMSP app ord) ⟨[], [], w.trace⟩
    let rootCASupport : CASupport :=
      { w.rootCASupport with
          AppRootCAsByChain := w.rootCASupport.AppRootCAsByChain.set cid acc.appRootCAs
          OrdererRootCAsByChain := w.rootCASupport.OrdererRootCAsByChain.set cid acc.ordererRootCAs }
    let roots := trustedRoots rootCASupport
    let r := w.srv.SetClientRootCAs rejects roots
    let w : World :=
      { srv := r.1, rootCASupport := rootCASupport,
        trace := acc.trace ++ [Event.SetClientRootCAs roots] }
    match r.2 with
    | some err =>
      Outcome.returned
        (w.log Level.Warning
          ("Failed to update trusted roots for orderer from latest config " ++
           "block.  This orderer may not be able to communicate " ++
           "with members of channel " ++ cid ++ " (" ++ err ++ ")")) ()
    | none => Outcome.returned w ()

/-- The closure `tlsCallback` built in `Start` (lines 111-117), applied to the
server and the trust state it captures. -/
def tlsCallback (rejects : List Cert → Option String) (w : World)
    (bundle : Resources) : Outcome World Unit :=
  if w.srv.MutualTLSRequired then
    updateTrustedRoots rejects (w.log Level.Debug "Executing callback to update root CAs") bundle
  else Outcome.returned w ()

/-- The trust state `caSupport` that `Start` creates (lines 106-110). -/
def newCASupport (clientRootCAs : List Cert) : CASupport :=
  { AppRootCAsByChain := GoMap.empty
    OrdererRootCAsByChain := GoMap.empty
    ClientRootCAs := clientRootCAs }

/-- The lists handed to `SetClientRootCAs`, oldest first. -/
def pushedRoots : List Event → List (List Cert)
  | [] => []
  | Event.SetClientRootCAs roots :: rest => roots :: pushedRoots rest
  | _ :: rest => pushedRoots rest

/-- The state a call ends in. -/
def Outcome.state {σ α : Type} : Outcome σ α → σ
  | Outcome.returned s _ => s
  | Outcome.panicked s _ => s
  | Outcome.exited s _ => s

/-- Whether the call came back to its caller. -/
def Outcome.isReturned {σ α : Type} : Outcome σ α → Bool
  | Outcome.returned _ _ => true
  | _ => false

/-- The value `m[k]` where a missing key gives the empty list (Go's `nil`). -/
def rootsOf (m : GoMap (List Cert)) (k : String) : List Cert :=
  (m.get k).getD []

/-- The IDs of the application organizations of a configuration (none when it
has no application part). -/
def applicationOrgIDs (cm : Resources) : List String :=
  (cm.ApplicationConfig.getD []).map Org.MSPID

/-- The IDs of the organizations of the consortiums of a configuration. -/
def consortiumOrgIDs (cm : Resources) : List String :=
  (cm.ConsortiumsConfig.getD []).foldr
    (fun consortium ids => consortium.Organizations.map Org.MSPID ++ ids) []

/-- The IDs of the orderer organizations of a configuration. -/
def ordererOrgIDs (cm : Resources) : List String :=
  (cm.OrdererConfig.getD []).map Org.MSPID

/-- The IDs of all organizations of a configuration. -/
def orgIDs (cm : Resources) : List String :=
  applicationOrgIDs cm ++ consortiumOrgIDs cm ++ ordererOrgIDs cm

/-- The certificates the providers in `msps` give to the list guarded by the
ID set `ids`, in the order the loops of lines 356-384 append them. -/
def contributed (ids : GoMap Unit) : List (String × MSP) → List Cert
  | [] => []
  | kv :: rest =>
    (if kv.2.GetType = FABRIC ∧ (ids.get kv.1).isSome then
      kv.2.GetTLSRootCerts ++ kv.2.GetTLSIntermediateCerts
    else []) ++ contributed ids rest

/-- How often the certificate `c` occurs in the TLS root and TLS intermediate
certificate lists of the FABRIC providers in `msps` whose key is one of `ids`. -/
def timesContributed (ids : List String) (c : Cert) : List (String × MSP) → Nat
  | [] => 0
  | kv :: rest =>
    (if kv.2.GetType = FABRIC ∧ kv.1 ∈ ids then
      kv.2.GetTLSRootCerts.count c + kv.2.GetTLSIntermediateCerts.count c
    else 0) + timesContributed ids c rest

/-! ## Bootstrap of the system channel -/

/-- The part `General` of `config.TopLevel` that is read here. -/
structure General where
  LedgerType : String
  GenesisMethod : String
  GenesisProfile : String
  SystemChannel : String
  GenesisFile : String
deriving DecidableEq, Repr

/-- The part `FileLedger` of `config.TopLevel`. -/
structure FileLedger where
  Location : String
  Prefix : String
deriving DecidableEq, Repr

/-- The part `RAMLedger` of `config.TopLevel`. -/
structure RAMLedger where
  HistorySize : Nat
deriving DecidableEq, Repr

/-- The configuration `config.TopLevel`. -/
structure TopLevel where
  General : General
  FileLedger : FileLedger
  RAMLedger : RAMLedger
deriving DecidableEq, Repr

/-- Modelled from the spec: the ledger store `blockledger.Factory`, whose
implementations (file, json, ram) are not among the sources at hand.  It holds
one ledger, a sequence of blocks, per channel ID. -/
structure Factory where
  ledgers : GoMap (List Block)

/-- Modelled from the spec: `Factory.ChainIDs()`, the "existing channels in
ledger storage". -/
def Factory.ChainIDs (lf : Factory) : List String := lf.ledgers.keys

/-- Modelled from the spec: `Factory.GetOrCreate(chainID)`, "create (or open)
that channel's ledger".  `err` is the error the store answers, if any; on
success a missing ledger is created empty and an existing one is left as it
is. -/
def Factory.GetOrCreate (err : Option String) (lf : Factory) (chainID : String) :
    Factory × Option String :=
  match err with
  | some e => (lf, some e)
  | none =>
    match lf.ledgers.get chainID with
    | some _ => (lf, none)
    | none => ({ ledgers := lf.ledgers.set chainID [] }, none)

/-- Modelled from the spec: `Append(block)` on the ledger of `chainID`.  `err`
is the error the ledger answers, if any; on success the block becomes the last
one, so that the height grows by one. -/
def Factory.Append (err : Option String) (lf : Factory) (chainID : String)
    (block : Block) : Factory × Option String :=
  match err with
  | some e => (lf, some e)
  | none =>
    ({ ledgers := lf.ledgers.set chainID ((lf.ledgers.get chainID).getD [] ++ [block]) }, none)

/-- Modelled from the spec: `Height()` of the ledger of `chainID`, `none` when
the store has no such ledger. -/
def Factory.Height (lf : Factory) (chainID : String) : Option Nat :=
  (lf.ledgers.get chainID).map List.length

/-- Modelled from the spec: block number `n` of the ledger of `chainID`. -/
def Factory.blockAt (lf : Factory) (chainID : String) (n : Nat) : Option Block :=
  (lf.ledgers.get chainID).bind (fun blocks => blocks.get? n)

/-- The collaborators of the start-up code whose sources are not at hand, each
as the function of its arguments that the code sees.  For the two genesis
sources, which return no error, `Except.error msg` stands for a panic inside
the call (a missing file, a malformed block). -/
structure Env where
  /-- The call `encoder.New(genesisconfig.Load(profile)).GenesisBlockForChannel(channel)`. -/
  GenesisBlockForChannel : String → String → Except String Block
  /-- The call `file.New(genesisFile).GenesisBlock()`. -/
  GenesisBlock : String → Except String Block
  /-- The call `utils.GetChainIDFromBlock(block)`. -/
  GetChainIDFromBlock : Block → Except String String
  /-- The error of `lf.GetOrCreate(chainID)`, if any. -/
  GetOrCreateErr : Factory → String → Option String
  /-- The error of `gl.Append(block)` on the ledger of a channel, if any. -/
  AppendErr : Factory → String → Block → Option String
  /-- The call `ioutil.TempDir("", dirPrefix)`. -/
  TempDir : String → Except String String
  /-- The call `filepath.Join(parent, sub)`. -/
  Join : String → String → String
  /-- The call `os.Stat(path)`; the error carries `os.IsNotExist(err)`. -/
  Stat : String → Except Bool Unit
  /-- The error of `os.Mkdir(path, 0755)`, if any. -/
  Mkdir : String → Option String
  /-- The store `fileledger.New(dir)` opens. -/
  fileledgerNew : String → Factory
  /-- The store `jsonledger.New(dir)` opens. -/
  jsonledgerNew : String → Factory
  /-- The store `ramledger.New(historySize)` makes. -/
  ramledgerNew : Nat → Factory

/-- Modelled from the spec: the constant `fsblkstorage.ChainsDir`, the name of
the directory of the per-channel ledgers. -/
def ChainsDir : String := "chains"

/-- The ledger store together with the trace. -/
structure Boot where
  lf : Factory
  trace : List Event

/-- One more event. -/
def Boot.record (s : Boot) (e : Event) : Boot :=
  { s with trace := s.trace ++ [e] }

/-- The `switch` of `initializeBootstrapChannel` (lines 235-248): the genesis
block of the configured method. -/
def obtainGenesisBlock (env : Env) (conf : TopLevel) (s : Boot) : Outcome Boot Block :=
  if conf.General.GenesisMethod = "provisional" then
    let s := s.record
      (Event.GenesisBlockForChannel conf.General.GenesisProfile conf.General.SystemChannel)
    match env.GenesisBlockForChannel conf.General.GenesisProfile conf.General.SystemChannel with
    | Except.ok b => Outcome.returned s b
    | Except.error msg => Outcome.panicked s msg
  else if conf.General.GenesisMethod = "file" then
    let s := s.record (Event.GenesisBlock conf.General.GenesisFile)
    match env.GenesisBlock conf.General.GenesisFile with
    | Except.ok b => Outcome.returned s b
    | Except.error msg => Outcome.panicked s msg
  else
    Outcome.panicked
      (s.record (Event.log Level.Panic ("Unknown genesis method:" ++ conf.General.GenesisMethod)))
      ("Unknown genesis method:" ++ conf.General.GenesisMethod)

/-- The function `initializeBootstrapChannel(conf, lf)`. -/
def initializeBootstrapChannel (env : Env) (conf : TopLevel) (s : Boot) :
    Outcome Boot Unit :=
  match obtainGenesisBlock env conf (s.record Event.initializeBootstrapChannel) with
  | Outcome.panicked s msg => Outcome.panicked s msg
  | Outcome.exited s code => Outcome.exited s code
  | Outcome.returned s genesisBlock =>
    match env.GetChainIDFromBlock genesisBlock with
    | Except.error err =>
      Outcome.exited
        (s.record (Event.log Level.Fatal ("Failed to parse chain ID from genesis block:" ++ err))) 1
    | Except.ok chainID =>
      let r := s.lf.GetOrCreate (env.GetOrCreateErr s.lf chainID) chainID
      let s : Boot := { lf := r.1, trace := s.trace ++ [Event.GetOrCreate chainID] }
      match r.2 with
      | some err =>
        Outcome.exited
          (s.record (Event.log Level.Fatal ("Failed to create the system chain:" ++ err))) 1
      | none =>
        let r := s.lf.Append (env.AppendErr s.lf chainID genesisBlock) chainID genesisBlock
        let s : Boot := { lf := r.1, trace := s.trace ++ [Event.Append chainID genesisBlock] }
        match r.2 with
        | some err =>
          Outcome.exited
            (s.record (Event.log Level.Fatal ("Could not write genesis block to ledger:" ++ err))) 1
        | none => Outcome.returned s ()

/-- The configured genesis method is one of the two known ones and yields the
block `G`. -/
def ObtainsGenesis (env : Env) (conf : TopLevel) (G : Block) : Prop :=
  (conf.General.GenesisMethod = "provisional" ∧
    env.GenesisBlockForChannel conf.General.GenesisProfile conf.General.SystemChannel =
      Except.ok G) ∨
  (conf.General.GenesisMethod = "file" ∧
    env.GenesisBlock conf.General.GenesisFile = Except.ok G)

/-- The function `createTempDir(dirPrefix)` of `util.go`. -/
def createTempDir (env : Env) (dirPrefix : String) (trace : List Event) :
    Outcome (List Event) String :=
  match env.TempDir dirPrefix with
  | Except.error err =>
    Outcome.panicked (trace ++ [Event.log Level.Panic ("Error creating temp dir:" ++ err)])
      ("Error creating temp dir:" ++ err)
  | Except.ok dirPath => Outcome.returned trace dirPath

/-- The function `createSubDir(parentDirPath, subDir)` of `util.go`. -/
def createSubDir (env : Env) (parentDirPath subDir : String) (trace : List Event) :
    Outcome (List Event) (String × Bool) :=
  let subDirPath := env.Join parentDirPath subDir
  match env.Stat subDirPath with
  | Except.error isNotExist =>
    if isNotExist then
      match env.Mkdir subDirPath with
      | some err =>
        Outcome.panicked (trace ++ [Event.log Level.Panic ("Error creating sub dir:" ++ err)])
          ("Error creating sub dir:" ++ err)
      | none => Outcome.returned trace (subDirPath, true)
    else Outcome.returned trace (subDirPath, false)
  | Except.ok _ =>
    Outcome.returned
      (trace ++ [Event.log Level.Debug ("Found " ++ ChainsDir ++ " sub-dir and using it")])
      (subDirPath, false)

/-- The directory a file or json ledger uses: `conf.FileLedger.Location`, or
a fresh temporary directory when that is empty. -/
def ledgerDir (env : Env) (conf : TopLevel) (trace : List Event) :
    Outcome (List Event) String :=
  let ld := conf.FileLedger.Location
  match (if ld = "" then createTempDir env conf.FileLedger.Prefix trace
         else Outcome.returned trace ld) with
  | Outcome.returned trace ld =>
    Outcome.returned (trace ++ [Event.log Level.Debug ("Ledger dir:" ++ ld)]) ld
  | other => other

/-- The function `createLedgerFactory(conf)` of `util.go`. -/
def createLedgerFactory (env : Env) (conf : TopLevel) (trace : List Event) :
    Outcome (List Event) (Factory × String) :=
  if conf.General.LedgerType = "file" then
    match ledgerDir env conf trace with
    | Outcome.returned trace ld =>
      let lf := env.fileledgerNew ld
      match createSubDir env ld ChainsDir trace with
      | Outcome.returned trace _ => Outcome.returned trace (lf, ld)
      | Outcome.panicked trace msg => Outcome.panicked trace msg
      | Outcome.exited trace code => Outcome.exited trace code
    | Outcome.panicked trace msg => Outcome.panicked trace msg
    | Outcome.exited trace code => Outcome.exited trace code
  else if conf.General.LedgerType = "json" then
    match ledgerDir env conf trace with
    | Outcome.returned trace ld => Outcome.returned trace (env.jsonledgerNew ld, ld)
    | Outcome.panicked trace msg => Outcome.panicked trace msg
    | Outcome.exited trace code => Outcome.exited trace code
  else
    Outcome.returned trace (env.ramledgerNew conf.RAMLedger.HistorySize, "")

/-- Modelled from the spec: the registrar `multichannel.NewRegistrar` builds,
as far as its arguments go: the ledger store and the names of the consensus
plugins.  The signer and the callbacks are left out. -/
structure Registrar where
  ledgerFactory : Factory
  consenters : GoMap Unit

/-- The function `initializeMultichannelRegistrar(conf, signer, callbacks...)`. -/
def initializeMultichannelRegistrar (env : Env) (conf : TopLevel) (trace : List Event) :
    Outcome (List Event) Registrar :=
  match createLedgerFactory env conf trace with
  | Outcome.panicked trace msg => Outcome.panicked trace msg
  | Outcome.exited trace code => Outcome.exited trace code
  | Outcome.returned trace (lf, _) =>
    let booted : Outcome Boot Unit :=
      if lf.ChainIDs.length = 0 then
        initializeBootstrapChannel env conf ⟨lf, trace⟩
      else
        Outcome.returned
          ⟨lf, trace ++ [Event.log Level.Info "Not bootstrapping because of existing chains"]⟩ ()
    match booted with
    | Outcome.panicked s msg => Outcome.panicked s.trace msg
    | Outcome.exited s code => Outcome.exited s.trace code
    | Outcome.returned s _ =>
      let consenters : GoMap Unit := GoMap.empty
      let consenters := consenters.set "solo" ()
      let consenters := consenters.set "kafka" ()
      Outcome.returned (s.trace ++ [Event.NewRegistrar])
        { ledgerFactory := s.lf, consenters := consenters }

/-- How often an event occurs in a trace. -/
def occurrences (e : Event) (trace : List Event) : Nat := trace.count e

/-- Whether an event is a call that makes a genesis block. -/
def Event.isGenesis : Event → Bool
  | Event.GenesisBlockForChannel _ _ => true
  | Event.GenesisBlock _ => true
  | _ => false

/-- Whether an event is a call that creates, opens or appends to a ledger. -/
def Event.isLedgerCall : Event → Bool
  | Event.GetOrCreate _ => true
  | Event.Append _ _ => true
  | _ => false

end Orderer

/-! ## Sample inputs -/

namespace Orderer

/-- The trace `t` goes on from `trace` with lines of the logger only. -/
def OnlyLogsAdded (trace t : List Event) : Prop :=
  ∃ extra, t = trace ++ extra ∧ ∀ e ∈ extra, ∃ level msg, e = Event.log level msg

/-- The consensus plugins `initializeMultichannelRegistrar` registers. -/
def registeredConsenters : GoMap Unit :=
  (GoMap.empty.set "solo" ()).set "kafka" ()

/-- Providers of the sample channel: orderer organization `O1` with TLS roots
`[1]` and `[2]`, application organization `O2` with TLS root `[3]`. -/
def sampleMSPs : List (String × MSP) :=
  [("O1", ⟨FABRIC, [[1], [2]], []⟩), ("O2", ⟨FABRIC, [[3]], []⟩)]

/-- Configuration of the sample channel `C`. -/
def sampleConfig : Resources :=
  { ChainID := "C"
    ApplicationConfig := some [⟨"Org2", "O2"⟩]
    OrdererConfig := some [⟨"Org1", "O1"⟩]
    ConsortiumsConfig := none
    GetMSPs := Except.ok sampleMSPs }

/-- A later configuration of channel `C`, without the organization `O2`. -/
def shrunkConfig : Resources :=
  { ChainID := "C"
    ApplicationConfig := some []
    OrdererConfig := some [⟨"Org1", "O1"⟩]
    ConsortiumsConfig := none
    GetMSPs := Except.ok [("O1", ⟨FABRIC, [[1], [2]], []⟩)] }

/-- A fresh trust state with the static client root `[9]`, on a server that
requires mutual TLS. -/
def sampleWorld : World :=
  { srv := ⟨true, []⟩, rootCASupport := newCASupport [[9]], trace := [] }

/-- A fresh trust state whose static client roots already hold `[3]`. -/
def staticWorld : World :=
  { srv := ⟨true, []⟩, rootCASupport := newCASupport [[3]], trace := [] }

/-- A fresh trust state on a server that does not require mutual TLS. -/
def plainWorld : World :=
  { srv := ⟨false, []⟩, rootCASupport := newCASupport [[9]], trace := [] }

/-- A genesis block of the sample deployment. -/
def sampleGenesis : Block := ⟨0, [[115, 121, 115]]⟩

/-- Collaborators of a sample deployment: the provisional encoder yields
`sampleGenesis`, whose channel is `system`; the genesis file is missing; every
ledger store is empty and no ledger call fails. -/
def sampleEnv : Env where
  GenesisBlockForChannel := fun _ _ => Except.ok sampleGenesis
  GenesisBlock := fun _ => Except.error "Unable to bootstrap orderer. Error reading genesis block file"
  GetChainIDFromBlock := fun _ => Except.ok "system"
  GetOrCreateErr := fun _ _ => none
  AppendErr := fun _ _ _ => none
  TempDir := fun dirPrefix => Except.ok ("/tmp/" ++ dirPrefix)
  Join := fun parent sub => parent ++ "/" ++ sub
  Stat := fun _ => Except.error true
  Mkdir := fun _ => none
  fileledgerNew := fun _ => ⟨GoMap.empty⟩
  jsonledgerNew := fun _ => ⟨GoMap.empty⟩
  ramledgerNew := fun _ => ⟨GoMap.empty⟩

/-- The default deployment: ram ledger, provisional genesis method. -/
def sampleConf : TopLevel :=
  { General :=
      { LedgerType := "ram", GenesisMethod := "provisional",
        GenesisProfile := "SampleInsecureSolo", SystemChannel := "system",
        GenesisFile := "genesisblock" }
    FileLedger := { Location := "", Prefix := "hyperledger-fabric-ordererledger" }
    RAMLedger := { HistorySize := 1000 } }

/-- An empty ledger store with an empty trace. -/
def emptyBoot : Boot := { lf := ⟨GoMap.empty⟩, trace := [] }

/-- The sample deployment with a genesis method the code does not know. -/
def unknownMethodConf : TopLevel :=
  { sampleConf with General := { sampleConf.General with GenesisMethod := "remote" } }

/-- The sample collaborators, but the ledger store already holds the ledger of
channel `system`. -/
def restartedEnv : Env :=
  { sampleEnv with
      ramledgerNew := fun _ => ⟨GoMap.empty.set "system" [sampleGenesis]⟩ }

/-- Configuration of a channel `C` whose two application organizations `O2`
and `O3` use the same TLS root certificate `[3]`. -/
def sharedRootConfig : Resources :=
  { ChainID := "C"
    ApplicationConfig := some [⟨"Org2", "O2"⟩, ⟨"Org3", "O3"⟩]
    OrdererConfig := some [⟨"Org1", "O1"⟩]
    ConsortiumsConfig := none
    GetMSPs := Except.ok
      [("O1", ⟨FABRIC, [[1], [2]], []⟩), ("O2", ⟨FABRIC, [[3]], []⟩),
        ("O3", ⟨FABRIC, [[3]], []⟩)] }

/-- Configuration of another channel, `D`, with the application organization
`O4` and its TLS root `[4]`. -/
def otherChannelConfig : Resources :=
  { ChainID := "D"
    ApplicationConfig := some [⟨"Org4", "O4"⟩]
    OrdererConfig := none
    ConsortiumsConfig := none
    GetMSPs := Except.ok [("O4", ⟨FABRIC, [[4]], []⟩)] }

/-- A configuration of channel `C` whose membership lookup fails. -/
def failingConfig : Resources :=
  { sampleConfig with GetMSPs := Except.error "MSP manager not initialized" }

/-- A transport layer that accepts every list. -/
def acceptAll : List Cert → Option String := fun _ => none

/-- A transport layer that refuses every list. -/
def rejectAll : List Cert → Option String := fun _ => some "bad certificate"

end Orderer

/-! ## Lemmas on Go maps -/

namespace Orderer

namespace GoMap

variable {β : Type}

theorem find_snd_eq_some_iff (l : List (String × β)) (h : (l.map Prod.fst).Nodup)
    (k : String) (v : β) :
    (l.find? (fun e => e.1 == k)).map Prod.snd = some v ↔ (k, v) ∈ l := by
  induction l with
  | nil => simp
  | cons e t ih =>
    obtain ⟨a, b⟩ := e
    rw [List.map_cons, List.nodup_cons] at h
    by_cases hak : a = k
    · subst hak
      have hnot : (a, v) ∉ t := fun hm => h.1 (List.mem_map.mpr ⟨(a, v), hm, rfl⟩)
      simp [List.find?_cons, hnot, eq_comm]
    · have hne : ¬ (k = a) := fun hka => hak hka.symm
      simp [List.find?_cons, hak, hne, ih h.2]

theorem get_eq_some_iff (m : GoMap β) (k : String) (v : β) :
    m.get k = some v ↔ (k, v) ∈ m.entries :=
  find_snd_eq_some_iff m.entries m.nodupKeys k v

theorem get_empty (k : String) : (empty : GoMap β).get k = none := rfl

theorem get_set_self (m : GoMap β) (k : String) (v : β) : (m.set k v).get k = some v := by
  simp [get, set, List.find?_cons]

theorem get_set_of_ne (m : GoMap β) (k k2 : String) (v : β) (h : k2 ≠ k) :
    (m.set k v).get k2 = m.get k2 := by
  apply Option.ext
  intro b
  rw [Option.mem_def, Option.mem_def, get_eq_some_iff, get_eq_some_iff]
  simp [set, List.mem_filter, h]

end GoMap

/-! ## Lemmas on the trust roots -/

theorem isSome_get_addOrgMSPs (orgs : List Org) (m : GoMap Unit) (k : String) :
    ((addOrgMSPs m orgs).get k).isSome = true ↔
      (m.get k).isSome = true ∨ k ∈ orgs.map Org.MSPID := by
  induction orgs generalizing m with
  | nil => simp [addOrgMSPs]
  | cons o t ih =>
    have step : addOrgMSPs m (o :: t) = addOrgMSPs (m.set o.MSPID ()) t := rfl
    rw [step, ih]
    by_cases h : k = o.MSPID
    · subst h
      simp [GoMap.get_set_self]
    · simp [GoMap.get_set_of_ne _ _ _ _ h, h]

theorem isSome_get_consortiums (cc : List Consortium) (m : GoMap Unit) (k : String) :
    ((cc.foldl (fun m consortium => addOrgMSPs m consortium.Organizations) m).get k).isSome = true ↔
      (m.get k).isSome = true ∨
        k ∈ cc.foldr (fun consortium ids => consortium.Organizations.map Org.MSPID ++ ids) [] := by
  induction cc generalizing m with
  | nil => simp
  | cons c t ih =>
    rw [List.foldl_cons, ih, isSome_get_addOrgMSPs, List.foldr_cons, List.mem_append, or_assoc]

theorem isSome_get_appOrgMSPs (cm : Resources) (k : String) :
    ((appOrgMSPs cm).get k).isSome = true ↔
      k ∈ applicationOrgIDs cm ∨ k ∈ consortiumOrgIDs cm := by
  unfold appOrgMSPs applicationOrgIDs consortiumOrgIDs
  cases hA : cm.ApplicationConfig <;> cases hC : cm.ConsortiumsConfig <;>
    simp [isSome_get_consortiums, isSome_get_addOrgMSPs, GoMap.get_empty]

theorem isSome_get_ordOrgMSPs (cm : Resources) (k : String) :
    ((ordOrgMSPs cm).get k).isSome = true ↔ k ∈ ordererOrgIDs cm := by
  unfold ordOrgMSPs ordererOrgIDs
  cases hO : cm.OrdererConfig <;> simp [isSome_get_addOrgMSPs, GoMap.get_empty]

theorem pushedRoots_append (t1 t2 : List Event) :
    pushedRoots (t1 ++ t2) = pushedRoots t1 ++ pushedRoots t2 := by
  induction t1 with
  | nil => rfl
  | cons e t ih => cases e <;> simp [pushedRoots, ih]

theorem pushedRoots_log (t : List Event) (level : Level) (msg : String) :
    pushedRoots (t ++ [Event.log level msg]) = pushedRoots t := by
  simp [pushedRoots_append, pushedRoots]

theorem foldl_addCert (app ord : GoMap Unit) (k : String) (roots : List Cert) (acc : RootAcc) :
    (roots.foldl (addCert app ord k) acc).appRootCAs =
        acc.appRootCAs ++ (if (app.get k).isSome = true then roots else []) ∧
    (roots.foldl (addCert app ord k) acc).ordererRootCAs =
        acc.ordererRootCAs ++ (if (ord.get k).isSome = true then roots else []) ∧
    pushedRoots (roots.foldl (addCert app ord k) acc).trace = pushedRoots acc.trace := by
  induction roots generalizing acc with
  | nil => simp
  | cons r t ih =>
    rw [List.foldl_cons]
    obtain ⟨h1, h2, h3⟩ := ih (addCert app ord k acc r)
    rw [h1, h2, h3]
    unfold addCert
    by_cases ha : (app.get k).isSome = true <;> by_cases ho : (ord.get k).isSome = true <;>
      simp [ha, ho, pushedRoots_append, pushedRoots]

theorem contributed_cons (ids : GoMap Unit) (kv : String × MSP) (rest : List (String × MSP)) :
    contributed ids (kv :: rest) =
      (if kv.2.GetType = FABRIC ∧ (ids.get kv.1).isSome = true then
        kv.2.GetTLSRootCerts ++ kv.2.GetTLSIntermediateCerts
      else []) ++ contributed ids rest := rfl

theorem foldl_addMSP (app ord : GoMap Unit) (msps : List (String × MSP)) (acc : RootAcc) :
    (msps.foldl (addMSP app ord) acc).appRootCAs = acc.appRootCAs ++ contributed app msps ∧
    (msps.foldl (addMSP app ord) acc).ordererRootCAs =
        acc.ordererRootCAs ++ contributed ord msps ∧
    pushedRoots (msps.foldl (addMSP app ord) acc).trace = pushedRoots acc.trace := by
  induction msps generalizing acc with
  | nil => simp [contributed]
  | cons kv t ih =>
    rw [List.foldl_cons]
    obtain ⟨h1, h2, h3⟩ := ih (addMSP app ord acc kv)
    rw [h1, h2, h3, contributed_cons, contributed_cons]
    unfold addMSP
    by_cases hT : kv.2.GetType = FABRIC
    · obtain ⟨a1, a2, a3⟩ := foldl_addCert app ord kv.1 kv.2.GetTLSRootCerts acc
      obtain ⟨b1, b2, b3⟩ := foldl_addCert app ord kv.1 kv.2.GetTLSIntermediateCerts
        (kv.2.GetTLSRootCerts.foldl (addCert app ord kv.1) acc)
      simp only [hT, if_true, true_and]
      rw [b1, b2, b3, a1, a2, a3]
      by_cases ha : (app.get kv.1).isSome = true <;> by_cases ho : (ord.get kv.1).isSome = true <;>
        simp [ha, ho]
    · simp [hT]

theorem mem_contributed (ids : GoMap Unit) (msps : List (String × MSP)) (c : Cert) :
    c ∈ contributed ids msps ↔
      ∃ k p, (k, p) ∈ msps ∧ p.GetType = FABRIC ∧ (ids.get k).isSome = true ∧
        (c ∈ p.GetTLSRootCerts ∨ c ∈ p.GetTLSIntermediateCerts) := by
  induction msps with
  | nil => simp [contributed]
  | cons kv t ih =>
    obtain ⟨k0, p0⟩ := kv
    rw [contributed_cons, List.mem_append, ih]
    constructor
    · rintro (h | ⟨k, p, hm, hr⟩)
      · by_cases hc : p0.GetType = FABRIC ∧ (ids.get k0).isSome = true
        · rw [if_pos hc, List.mem_append] at h
          exact ⟨k0, p0, List.mem_cons_self _ _, hc.1, hc.2, h⟩
        · rw [if_neg hc] at h
          exact absurd h (List.not_mem_nil c)
      · exact ⟨k, p, List.mem_cons_of_mem _ hm, hr⟩
    · rintro ⟨k, p, hm, hT, hI, hc⟩
      rcases List.mem_cons.mp hm with heq | hm
      · left
        obtain ⟨rfl, rfl⟩ := Prod.mk.inj heq
        rw [if_pos ⟨hT, hI⟩, List.mem_append]
        exact hc
      · exact Or.inr ⟨k, p, hm, hT, hI, hc⟩

theorem mem_foldl_entries (l : List (String × List Cert)) (t : List Cert) (c : Cert) :
    c ∈ l.foldl (fun t e => t ++ e.2) t ↔ c ∈ t ∨ ∃ e ∈ l, c ∈ e.2 := by
  induction l generalizing t with
  | nil => simp
  | cons e r ih =>
    rw [List.foldl_cons, ih, List.mem_append]
    simp only [List.mem_cons, exists_eq_or_imp, or_assoc]

theorem mem_rootsOf (m : GoMap (List Cert)) (ch : String) (c : Cert) :
    c ∈ rootsOf m ch ↔ ∃ roots, (ch, roots) ∈ m.entries ∧ c ∈ roots := by
  unfold rootsOf
  cases h : m.get ch with
  | none =>
    simp only [Option.getD_none, List.not_mem_nil, false_iff]
    rintro ⟨roots, hm, _⟩
    rw [← GoMap.get_eq_some_iff, h] at hm
    exact Option.noConfusion hm
  | some r =>
    simp only [Option.getD_some]
    constructor
    · intro hc
      exact ⟨r, (GoMap.get_eq_some_iff m ch r).mp h, hc⟩
    · rintro ⟨roots, hm, hc⟩
      rw [← GoMap.get_eq_some_iff, h] at hm
      cases hm
      exact hc

theorem exists_entry_iff (m : GoMap (List Cert)) (c : Cert) :
    (∃ e ∈ m.entries, c ∈ e.2) ↔ ∃ ch, c ∈ rootsOf m ch := by
  constructor
  · rintro ⟨⟨ch, roots⟩, hm, hc⟩
    exact ⟨ch, (mem_rootsOf m ch c).mpr ⟨roots, hm, hc⟩⟩
  · rintro ⟨ch, hc⟩
    obtain ⟨roots, hm, hc⟩ := (mem_rootsOf m ch c).mp hc
    exact ⟨(ch, roots), hm, hc⟩

theorem mem_trustedRoots (cs : CASupport) (c : Cert) :
    c ∈ trustedRoots cs ↔
      (∃ ch, c ∈ rootsOf cs.AppRootCAsByChain ch) ∨
      (∃ ch, c ∈ rootsOf cs.OrdererRootCAsByChain ch) ∨ c ∈ cs.ClientRootCAs := by
  unfold trustedRoots
  rw [← exists_entry_iff, ← exists_entry_iff]
  by_cases hS : cs.ClientRootCAs.length > 0
  · rw [if_pos hS, List.mem_append, mem_foldl_entries, mem_foldl_entries]
    simp only [List.not_mem_nil, false_or, or_assoc]
  · have hnil : cs.ClientRootCAs = [] := List.eq_nil_of_length_eq_zero (by omega)
    rw [if_neg hS, mem_foldl_entries, mem_foldl_entries, hnil]
    simp only [List.not_mem_nil, false_or, or_false]

theorem rootsOf_set_self (m : GoMap (List Cert)) (k : String) (v : List Cert) :
    rootsOf (m.set k v) k = v := by
  simp [rootsOf, GoMap.get_set_self]

theorem rootsOf_set_of_ne (m : GoMap (List Cert)) (k k2 : String) (v : List Cert)
    (h : k2 ≠ k) : rootsOf (m.set k v) k2 = rootsOf m k2 := by
  simp [rootsOf, GoMap.get_set_of_ne _ _ _ _ h]

/-- The trust state `updateTrustedRoots` stores when `GetMSPs` answers `msps`. -/
theorem updateTrustedRoots_ok (rejects : List Cert → Option String) (w : World)
    (cm : Resources) (msps : List (String × MSP)) (h : cm.GetMSPs = Except.ok msps) :
    (updateTrustedRoots rejects w cm).isReturned = true ∧
    (updateTrustedRoots rejects w cm).state.rootCASupport =
      { AppRootCAsByChain :=
          w.rootCASupport.AppRootCAsByChain.set cm.ChainID (contributed (appOrgMSPs cm) msps)
        OrdererRootCAsByChain :=
          w.rootCASupport.OrdererRootCAsByChain.set cm.ChainID (contributed (ordOrgMSPs cm) msps)
        ClientRootCAs := w.rootCASupport.ClientRootCAs } ∧
    pushedRoots (updateTrustedRoots rejects w cm).state.trace =
      pushedRoots w.trace ++ [trustedRoots (updateTrustedRoots rejects w cm).state.rootCASupport] ∧
    (updateTrustedRoots rejects w cm).state.srv =
      (w.srv.SetClientRootCAs rejects
        (trustedRoots (updateTrustedRoots rejects w cm).state.rootCASupport)).1 := by
  obtain ⟨h1, h2, h3⟩ := foldl_addMSP (appOrgMSPs cm) (ordOrgMSPs cm) msps
    ⟨[], [], (w.log Level.Debug ("updating root CAs for channel [" ++ cm.ChainID ++ "]")).trace⟩
  simp only [List.nil_append] at h1 h2
  simp only [World.log, pushedRoots_log] at h3
  unfold updateTrustedRoots
  simp only [h]
  rw [h1, h2]
  split <;>
    simp [Outcome.isReturned, Outcome.state, World.log, pushedRoots_append, pushedRoots, h3]

/-! ## Trust roots: the stored entry and the pushed list -/

/-- C1: after `updateTrustedRoots` has processed a configuration of channel
`cid` for which `GetMSPs` succeeds, a certificate is in `AppRootCAsByChain[cid]`
exactly when it is a TLS root or TLS intermediate certificate of a provider of
type FABRIC whose key is the MSP ID of an application organization or of an
organization of a consortium, and it is in `OrdererRootCAsByChain[cid]` exactly
when it is such a certificate of a FABRIC provider whose key is the MSP ID of
an orderer organization; the call returns. -/
theorem stored_roots_characterised (rejects : List Cert → Option String) (w : World)
    (cm : Resources) (msps : List (String × MSP)) (h : cm.GetMSPs = Except.ok msps)
    (c : Cert) :
    (updateTrustedRoots rejects w cm).isReturned = true ∧
    (c ∈ rootsOf (updateTrustedRoots rejects w cm).state.rootCASupport.AppRootCAsByChain
          cm.ChainID ↔
      ∃ k p, (k, p) ∈ msps ∧ p.GetType = FABRIC ∧
        (k ∈ applicationOrgIDs cm ∨ k ∈ consortiumOrgIDs cm) ∧
        (c ∈ p.GetTLSRootCerts ∨ c ∈ p.GetTLSIntermediateCerts)) ∧
    (c ∈ rootsOf (updateTrustedRoots rejects w cm).state.rootCASupport.OrdererRootCAsByChain
          cm.ChainID ↔
      ∃ k p, (k, p) ∈ msps ∧ p.GetType = FABRIC ∧ k ∈ ordererOrgIDs cm ∧
        (c ∈ p.GetTLSRootCerts ∨ c ∈ p.GetTLSIntermediateCerts)) := by
  obtain ⟨hret, hcs, -, -⟩ := updateTrustedRoots_ok rejects w cm msps h
  refine ⟨hret, ?_, ?_⟩
  · rw [hcs, rootsOf_set_self, mem_contributed]
    simp only [isSome_get_appOrgMSPs]
  · rw [hcs, rootsOf_set_self, mem_contributed]
    simp only [isSome_get_ordOrgMSPs]

/-- The sample configuration: `[3]` of the application organization `O2` is
stored as an application root of channel `C`. -/
theorem stored_roots_characterised_witness :
    sampleConfig.GetMSPs = Except.ok sampleMSPs ∧
    [3] ∈ rootsOf (updateTrustedRoots acceptAll sampleWorld sampleConfig).state.rootCASupport.AppRootCAsByChain
      sampleConfig.ChainID :=
  ⟨rfl, (stored_roots_characterised acceptAll sampleWorld sampleConfig sampleMSPs rfl [3]).2.1.mpr
    ⟨"O2", ⟨FABRIC, [[3]], []⟩, by decide, rfl, by decide, by decide⟩⟩

/-- C2: for every prior trust state and every configuration for which `GetMSPs`
succeeds, `updateTrustedRoots` hands exactly one list to `SetClientRootCAs`, and
a certificate is in that list exactly when it is in `AppRootCAsByChain` of some
channel, or in `OrdererRootCAsByChain` of some channel, or in the static
`ClientRootCAs`, the maps being read after the entry of the channel has been
updated. -/
theorem pushed_roots_are_union (rejects : List Cert → Option String) (w : World)
    (cm : Resources) (msps : List (String × MSP)) (h : cm.GetMSPs = Except.ok msps) :
    ∃ roots : List Cert,
      pushedRoots (updateTrustedRoots rejects w cm).state.trace = pushedRoots w.trace ++ [roots] ∧
      ∀ c : Cert, c ∈ roots ↔
        (∃ ch, c ∈ rootsOf (updateTrustedRoots rejects w cm).state.rootCASupport.AppRootCAsByChain ch) ∨
        (∃ ch, c ∈ rootsOf (updateTrustedRoots rejects w cm).state.rootCASupport.OrdererRootCAsByChain ch) ∨
        c ∈ w.rootCASupport.ClientRootCAs := by
  obtain ⟨-, hcs, hpush, -⟩ := updateTrustedRoots_ok rejects w cm msps h
  refine ⟨_, hpush, ?_⟩
  intro c
  rw [mem_trustedRoots, hcs]

/-- The sample configuration: the one list pushed holds the static root `[9]`. -/
theorem pushed_roots_are_union_witness :
    sampleConfig.GetMSPs = Except.ok sampleMSPs ∧
    ∃ roots : List Cert,
      pushedRoots (updateTrustedRoots acceptAll sampleWorld sampleConfig).state.trace =
        pushedRoots sampleWorld.trace ++ [roots] ∧ [9] ∈ roots :=
  ⟨rfl,
    (pushed_roots_are_union acceptAll sampleWorld sampleConfig sampleMSPs rfl).elim
      (fun roots hr => ⟨roots, hr.1, (hr.2 [9]).mpr (Or.inr (Or.inr (by decide)))⟩)⟩

/-- C3: the trust-root scenario.  Starting from an empty trust state with the
static client roots `S`, let `updateTrustedRoots` process a configuration whose
only orderer organization `O1` has a FABRIC provider with the TLS roots `A` and
`B`, whose only application organization `O2` has a FABRIC provider with the
TLS root `C`, and whose consortiums name no organization other than `O2`.
Then the stored
application roots of the channel are exactly `C`, the stored orderer roots are
exactly `A` and `B`, and the list pushed to `SetClientRootCAs` holds `A`, `B`,
`C` and every certificate of `S`. -/
theorem trust_root_scenario (rejects : List Cert → Option String) (srv : GRPCServer)
    (trace : List Event) (S : List Cert) (cm : Resources) (msps : List (String × MSP))
    (O1 O2 : String) (A B C : Cert)
    (hne : O1 ≠ O2)
    (hord : ordererOrgIDs cm = [O1])
    (happ : applicationOrgIDs cm = [O2])
    (hcons : ∀ k, k ∈ consortiumOrgIDs cm → k = O2)
    (hmsps : cm.GetMSPs = Except.ok msps)
    (hperm : msps.Perm [(O1, ⟨FABRIC, [A, B], []⟩), (O2, ⟨FABRIC, [C], []⟩)]) :
    (∀ c : Cert,
      c ∈ rootsOf (updateTrustedRoots rejects ⟨srv, newCASupport S, trace⟩ cm).state.rootCASupport.AppRootCAsByChain
            cm.ChainID ↔ c = C) ∧
    (∀ c : Cert,
      c ∈ rootsOf (updateTrustedRoots rejects ⟨srv, newCASupport S, trace⟩ cm).state.rootCASupport.OrdererRootCAsByChain
            cm.ChainID ↔ c = A ∨ c = B) ∧
    ∃ roots : List Cert,
      pushedRoots (updateTrustedRoots rejects ⟨srv, newCASupport S, trace⟩ cm).state.trace =
        pushedRoots trace ++ [roots] ∧
      A ∈ roots ∧ B ∈ roots ∧ C ∈ roots ∧ ∀ s ∈ S, s ∈ roots := by
  obtain ⟨-, hcs, hpush, -⟩ :=
    updateTrustedRoots_ok rejects ⟨srv, newCASupport S, trace⟩ cm msps hmsps
  have hne2 : O2 ≠ O1 := fun e => hne e.symm
  have happC : ∀ c : Cert, c ∈ contributed (appOrgMSPs cm) msps ↔ c = C := by
    intro c
    rw [mem_contributed]
    simp only [isSome_get_appOrgMSPs, happ, hperm.mem_iff]
    constructor
    · rintro ⟨k, p, hm, -, hk, hc⟩
      simp only [List.mem_cons, List.mem_singleton, List.not_mem_nil, or_false, Prod.mk.injEq] at hm hk
      have hk2 : k = O2 := hk.elim id (hcons k)
      subst hk2
      rcases hm with ⟨h1, -⟩ | ⟨-, rfl⟩
      · exact absurd h1 hne2
      · simpa using hc
    · rintro rfl
      exact ⟨O2, ⟨FABRIC, [c], []⟩, by simp, rfl, by simp, by simp⟩
  have hordAB : ∀ c : Cert, c ∈ contributed (ordOrgMSPs cm) msps ↔ c = A ∨ c = B := by
    intro c
    rw [mem_contributed]
    simp only [isSome_get_ordOrgMSPs, hord, hperm.mem_iff]
    constructor
    · rintro ⟨k, p, hm, -, hk, hc⟩
      simp only [List.mem_cons, List.mem_singleton, List.not_mem_nil, or_false, Prod.mk.injEq] at hm hk
      subst hk
      rcases hm with ⟨-, rfl⟩ | ⟨h1, -⟩
      · simpa using hc
      · exact absurd h1 hne
    · intro hc
      exact ⟨O1, ⟨FABRIC, [A, B], []⟩, by simp, rfl, by simp, by simpa using hc⟩
  refine ⟨?_, ?_, _, hpush, ?_, ?_, ?_, ?_⟩
  · intro c
    rw [hcs, rootsOf_set_self, happC]
  · intro c
    rw [hcs, rootsOf_set_self, hordAB]
  · rw [mem_trustedRoots, hcs]
    exact Or.inr (Or.inl ⟨cm.ChainID, by rw [rootsOf_set_self, hordAB]; exact Or.inl rfl⟩)
  · rw [mem_trustedRoots, hcs]
    exact Or.inr (Or.inl ⟨cm.ChainID, by rw [rootsOf_set_self, hordAB]; exact Or.inr rfl⟩)
  · rw [mem_trustedRoots, hcs]
    exact Or.inl ⟨cm.ChainID, by rw [rootsOf_set_self, happC]⟩
  · intro s hs
    rw [mem_trustedRoots, hcs]
    exact Or.inr (Or.inr hs)

/-- The scenario on the sample configuration, with `A = [1]`, `B = [2]`,
`C = [3]` and `S = [[9]]`. -/
theorem trust_root_scenario_witness :
    (("O1" : String) ≠ "O2" ∧ ordererOrgIDs sampleConfig = ["O1"] ∧
      applicationOrgIDs sampleConfig = ["O2"] ∧
      (∀ k, k ∈ consortiumOrgIDs sampleConfig → k = "O2") ∧
      sampleConfig.GetMSPs = Except.ok sampleMSPs) ∧
    ((∀ c : Cert,
      c ∈ rootsOf (updateTrustedRoots acceptAll ⟨⟨true, []⟩, newCASupport [[9]], []⟩
              sampleConfig).state.rootCASupport.AppRootCAsByChain sampleConfig.ChainID ↔ c = [3]) ∧
    (∀ c : Cert,
      c ∈ rootsOf (updateTrustedRoots acceptAll ⟨⟨true, []⟩, newCASupport [[9]], []⟩
              sampleConfig).state.rootCASupport.OrdererRootCAsByChain sampleConfig.ChainID ↔
        c = [1] ∨ c = [2]) ∧
    ∃ roots : List Cert,
      pushedRoots (updateTrustedRoots acceptAll ⟨⟨true, []⟩, newCASupport [[9]], []⟩
          sampleConfig).state.trace = pushedRoots [] ++ [roots] ∧
      [1] ∈ roots ∧ [2] ∈ roots ∧ [3] ∈ roots ∧ ∀ s ∈ [([9] : Cert)], s ∈ roots) :=
  ⟨⟨by decide, rfl, rfl, by decide, rfl⟩,
    trust_root_scenario acceptAll ⟨true, []⟩ [] [[9]] sampleConfig sampleMSPs "O1" "O2"
      [1] [2] [3] (by decide) rfl rfl (by decide) rfl (List.Perm.refl _)⟩

/-- C4: `updateTrustedRoots` stores a full replacement.  For every two prior
trust states and every configuration for which `GetMSPs` succeeds, the entries
stored for the channel in `AppRootCAsByChain` and `OrdererRootCAsByChain` are
given by the configuration alone, hence the same from both prior states, and
processing the configuration a second time stores the same entries again. -/
theorem full_replacement (r1 r2 : List Cert → Option String) (w1 w2 : World)
    (cm : Resources) (msps : List (String × MSP)) (h : cm.GetMSPs = Except.ok msps) :
    ((updateTrustedRoots r1 w1 cm).state.rootCASupport.AppRootCAsByChain.get cm.ChainID =
        some (contributed (appOrgMSPs cm) msps) ∧
      (updateTrustedRoots r1 w1 cm).state.rootCASupport.OrdererRootCAsByChain.get cm.ChainID =
        some (contributed (ordOrgMSPs cm) msps)) ∧
    ((updateTrustedRoots r1 w1 cm).state.rootCASupport.AppRootCAsByChain.get cm.ChainID =
        (updateTrustedRoots r2 w2 cm).state.rootCASupport.AppRootCAsByChain.get cm.ChainID ∧
      (updateTrustedRoots r1 w1 cm).state.rootCASupport.OrdererRootCAsByChain.get cm.ChainID =
        (updateTrustedRoots r2 w2 cm).state.rootCASupport.OrdererRootCAsByChain.get cm.ChainID) ∧
    ((updateTrustedRoots r2 (updateTrustedRoots r1 w1 cm).state cm).state.rootCASupport.AppRootCAsByChain.get
          cm.ChainID =
        (updateTrustedRoots r1 w1 cm).state.rootCASupport.AppRootCAsByChain.get cm.ChainID ∧
      (updateTrustedRoots r2 (updateTrustedRoots r1 w1 cm).state cm).state.rootCASupport.OrdererRootCAsByChain.get
          cm.ChainID =
        (updateTrustedRoots r1 w1 cm).state.rootCASupport.OrdererRootCAsByChain.get cm.ChainID) := by
  obtain ⟨-, h1, -, -⟩ := updateTrustedRoots_ok r1 w1 cm msps h
  obtain ⟨-, h2, -, -⟩ := updateTrustedRoots_ok r2 w2 cm msps h
  obtain ⟨-, h3, -, -⟩ := updateTrustedRoots_ok r2 (updateTrustedRoots r1 w1 cm).state cm msps h
  rw [h3, h1, h2]
  simp only [GoMap.get_set_self, and_self]

/-- Two different prior states, one empty and one that already holds entries
for channel `C`, end with the same entries for `C`. -/
theorem full_replacement_witness :
    sampleConfig.GetMSPs = Except.ok sampleMSPs ∧
    (updateTrustedRoots acceptAll sampleWorld sampleConfig).state.rootCASupport.AppRootCAsByChain.get "C" =
      (updateTrustedRoots rejectAll
        (updateTrustedRoots acceptAll sampleWorld shrunkConfig).state
        sampleConfig).state.rootCASupport.AppRootCAsByChain.get "C" :=
  ⟨rfl, (full_replacement acceptAll rejectAll sampleWorld
    (updateTrustedRoots acceptAll sampleWorld shrunkConfig).state sampleConfig sampleMSPs rfl).2.1.1⟩

/-- In the sample configuration the certificate `[3]` comes from `O2` alone. -/
theorem sample_only_from_O2 (k : String) (p : MSP) (hm : (k, p) ∈ sampleMSPs)
    (hc : [3] ∈ p.GetTLSRootCerts ∨ [3] ∈ p.GetTLSIntermediateCerts) : k = "O2" := by
  simp only [sampleMSPs, List.mem_cons, List.mem_singleton, List.not_mem_nil, or_false,
    Prod.mk.injEq] at hm
  rcases hm with ⟨rfl, rfl⟩ | ⟨rfl, rfl⟩
  · exact absurd hc (by decide)
  · rfl

/-- C5, as amended: let `updateTrustedRoots` process a configuration `cm1` of a
channel and then a later configuration `cm2` of the same channel from which the
organization `O2` has been removed (`cm2` has no organization and no provider
that `cm1` lacks, and `O2` is none of its organizations).  Then a certificate
that `cm1` obtained only from `O2` is in the list pushed by the second call
only if it is in the stored roots of another channel or in the static
`ClientRootCAs`. -/
theorem shrinking_config (r1 r2 : List Cert → Option String) (w0 : World)
    (cm1 cm2 : Resources) (msps1 msps2 : List (String × MSP)) (O2 : String) (c : Cert)
    (hcid : cm2.ChainID = cm1.ChainID)
    (h1 : cm1.GetMSPs = Except.ok msps1)
    (h2 : cm2.GetMSPs = Except.ok msps2)
    (honly : ∀ k p, (k, p) ∈ msps1 → p.GetType = FABRIC → k ∈ orgIDs cm1 →
      (c ∈ p.GetTLSRootCerts ∨ c ∈ p.GetTLSIntermediateCerts) → k = O2)
    (hremoved : O2 ∉ orgIDs cm2)
    (hids : ∀ k, k ∈ orgIDs cm2 → k ∈ orgIDs cm1)
    (hsub : ∀ kp, kp ∈ msps2 → kp ∈ msps1) :
    ∃ roots : List Cert,
      pushedRoots (updateTrustedRoots r2 (updateTrustedRoots r1 w0 cm1).state cm2).state.trace =
        pushedRoots (updateTrustedRoots r1 w0 cm1).state.trace ++ [roots] ∧
      (c ∈ roots →
        (∃ ch, ch ≠ cm1.ChainID ∧
          (c ∈ rootsOf
              (updateTrustedRoots r2 (updateTrustedRoots r1 w0 cm1).state cm2).state.rootCASupport.AppRootCAsByChain
              ch ∨
           c ∈ rootsOf
              (updateTrustedRoots r2 (updateTrustedRoots r1 w0 cm1).state cm2).state.rootCASupport.OrdererRootCAsByChain
              ch)) ∨
        c ∈ w0.rootCASupport.ClientRootCAs) := by
  obtain ⟨-, hcs1, -, -⟩ := updateTrustedRoots_ok r1 w0 cm1 msps1 h1
  obtain ⟨-, hcs2, hpush, -⟩ :=
    updateTrustedRoots_ok r2 (updateTrustedRoots r1 w0 cm1).state cm2 msps2 h2
  have hgone : ∀ ids : GoMap Unit,
      (∀ k, (ids.get k).isSome = true → k ∈ orgIDs cm2) → c ∉ contributed ids msps2 := by
    intro ids hk hc
    obtain ⟨k, p, hm, hT, hI, hcert⟩ := (mem_contributed ids msps2 c).mp hc
    have hk2 : k ∈ orgIDs cm2 := hk k hI
    have : k = O2 := honly k p (hsub _ hm) hT (hids k hk2) hcert
    exact hremoved (this ▸ hk2)
  have happ : c ∉ contributed (appOrgMSPs cm2) msps2 := by
    apply hgone
    intro k hk
    rcases (isSome_get_appOrgMSPs cm2 k).mp hk with h | h
    · exact List.mem_append_left _ (List.mem_append_left _ h)
    · exact List.mem_append_left _ (List.mem_append_right _ h)
  have hord : c ∉ contributed (ordOrgMSPs cm2) msps2 := by
    apply hgone
    intro k hk
    exact List.mem_append_right _ ((isSome_get_ordOrgMSPs cm2 k).mp hk)
  refine ⟨_, hpush, ?_⟩
  intro hc
  rw [mem_trustedRoots] at hc
  rw [hcs2] at hc ⊢
  simp only at hc ⊢
  rcases hc with ⟨ch, hch⟩ | ⟨ch, hch⟩ | hS
  · by_cases hne : ch = cm2.ChainID
    · subst hne
      rw [rootsOf_set_self] at hch
      exact absurd hch happ
    · exact Or.inl ⟨ch, hcid ▸ hne, Or.inl hch⟩
  · by_cases hne : ch = cm2.ChainID
    · subst hne
      rw [rootsOf_set_self] at hch
      exact absurd hch hord
    · exact Or.inl ⟨ch, hcid ▸ hne, Or.inr hch⟩
  · rw [hcs1] at hS
    exact Or.inr hS

/-- The sample channel loses `O2`: its root `[3]` is not pushed any more,
there being no other channel and no static root `[3]`. -/
theorem shrinking_config_witness :
    [3] ∉ (pushedRoots
      (updateTrustedRoots acceptAll (updateTrustedRoots acceptAll sampleWorld sampleConfig).state
        shrunkConfig).state.trace).getLast?.getD [] :=
  (shrinking_config acceptAll acceptAll sampleWorld sampleConfig shrunkConfig sampleMSPs
      [("O1", ⟨FABRIC, [[1], [2]], []⟩)] "O2" [3] rfl rfl rfl
      (fun k p hm _ _ hc => sample_only_from_O2 k p hm hc) (by decide)
      (by decide) (by decide)).elim
    (fun roots hr hmem => by
      have hlast : (pushedRoots
          (updateTrustedRoots acceptAll (updateTrustedRoots acceptAll sampleWorld sampleConfig).state
            shrunkConfig).state.trace).getLast?.getD [] = roots := by
        rw [hr.1]; simp
      rw [hlast] at hmem
      rcases hr.2 hmem with ⟨ch, hch, hin⟩ | hS
      · obtain ⟨-, hcs1, -, -⟩ := updateTrustedRoots_ok acceptAll sampleWorld sampleConfig sampleMSPs rfl
        obtain ⟨-, hcs2, -, -⟩ := updateTrustedRoots_ok acceptAll
          (updateTrustedRoots acceptAll sampleWorld sampleConfig).state shrunkConfig
          [("O1", ⟨FABRIC, [[1], [2]], []⟩)] rfl
        have hch2 : ch ≠ shrunkConfig.ChainID := hch
        rw [hcs2, hcs1] at hin
        simp only [rootsOf_set_of_ne _ _ _ _ hch2, rootsOf_set_of_ne _ _ _ _ hch] at hin
        simp [rootsOf, sampleWorld, newCASupport, GoMap.get_empty] at hin
      · exact absurd hS (by decide))

/-- C5 as stated fails: on a trust state whose static client roots hold `[3]`,
the sample configuration obtains `[3]` only from the application organization
`O2`; after the later configuration without `O2` has been processed, the list
pushed by that second call still holds `[3]`, although no channel other than
`C` has any stored root. -/
theorem shrinking_counterexample :
    ("O2" ∈ applicationOrgIDs sampleConfig ∧
      [3] ∈ rootsOf
        (updateTrustedRoots acceptAll staticWorld sampleConfig).state.rootCASupport.AppRootCAsByChain "C" ∧
      (∀ k p, (k, p) ∈ sampleMSPs → p.GetType = FABRIC → k ∈ orgIDs sampleConfig →
        ([3] ∈ p.GetTLSRootCerts ∨ [3] ∈ p.GetTLSIntermediateCerts) → k = "O2") ∧
      "O2" ∉ orgIDs shrunkConfig) ∧
    pushedRoots
        (updateTrustedRoots acceptAll (updateTrustedRoots acceptAll staticWorld sampleConfig).state
          shrunkConfig).state.trace = [[[3], [1], [2], [3]], [[1], [2], [3]]] ∧
    [3] ∈ ([[1], [2], [3]] : List Cert) ∧
    (updateTrustedRoots acceptAll (updateTrustedRoots acceptAll staticWorld sampleConfig).state
        shrunkConfig).state.rootCASupport.AppRootCAsByChain.keys = ["C"] ∧
    (updateTrustedRoots acceptAll (updateTrustedRoots acceptAll staticWorld sampleConfig).state
        shrunkConfig).state.rootCASupport.OrdererRootCAsByChain.keys = ["C"] := by
  exact ⟨⟨by decide, by decide, fun k p hm _ _ hc => sample_only_from_O2 k p hm hc, by decide⟩,
    by decide, by decide, by decide, by decide⟩

/-! ## The callback of `Start` and a rejected push -/

theorem updateTrustedRoots_error (rejects : List Cert → Option String) (w : World)
    (cm : Resources) (err : String) (h : cm.GetMSPs = Except.error err) :
    updateTrustedRoots rejects w cm =
      Outcome.returned
        ((w.log Level.Debug ("updating root CAs for channel [" ++ cm.ChainID ++ "]")).log
          Level.Error ("Error getting root CAs for channel " ++ cm.ChainID ++ " (" ++ err ++ ")")) () := by
  unfold updateTrustedRoots
  simp only [h]

/-- The trace read by `updateTrustedRoots` matters to the trace it leaves only. -/
theorem updateTrustedRoots_log (rejects : List Cert → Option String) (w : World)
    (cm : Resources) (level : Level) (msg : String) :
    (updateTrustedRoots rejects (w.log level msg) cm).isReturned =
      (updateTrustedRoots rejects w cm).isReturned ∧
    (updateTrustedRoots rejects (w.log level msg) cm).state.rootCASupport =
      (updateTrustedRoots rejects w cm).state.rootCASupport ∧
    (updateTrustedRoots rejects (w.log level msg) cm).state.srv =
      (updateTrustedRoots rejects w cm).state.srv ∧
    pushedRoots (updateTrustedRoots rejects (w.log level msg) cm).state.trace =
      pushedRoots (updateTrustedRoots rejects w cm).state.trace := by
  cases hG : cm.GetMSPs with
  | error err =>
    rw [updateTrustedRoots_error rejects w cm err hG,
      updateTrustedRoots_error rejects (w.log level msg) cm err hG]
    simp [Outcome.isReturned, Outcome.state, World.log, pushedRoots_append, pushedRoots]
  | ok msps =>
    obtain ⟨a1, a2, a3, a4⟩ := updateTrustedRoots_ok rejects w cm msps hG
    obtain ⟨b1, b2, b3, b4⟩ := updateTrustedRoots_ok rejects (w.log level msg) cm msps hG
    have hcs : (updateTrustedRoots rejects (w.log level msg) cm).state.rootCASupport =
        (updateTrustedRoots rejects w cm).state.rootCASupport := by
      rw [a2, b2]; rfl
    refine ⟨by rw [a1, b1], hcs, ?_, ?_⟩
    · rw [a4, b4, hcs]; rfl
    · rw [a3, b3, hcs]
      simp [World.log, pushedRoots_append, pushedRoots]

/-- What a refused list leaves behind. -/
theorem updateTrustedRoots_rejected (rejects : List Cert → Option String) (w : World)
    (cm : Resources) (msps : List (String × MSP)) (err : String)
    (h : cm.GetMSPs = Except.ok msps)
    (hrej : rejects (trustedRoots (updateTrustedRoots rejects w cm).state.rootCASupport) = some err) :
    (updateTrustedRoots rejects w cm).state.srv = w.srv ∧
    ∃ t msg, (updateTrustedRoots rejects w cm).state.trace = t ++ [Event.log Level.Warning msg] := by
  obtain ⟨-, hcs, -, hsrv⟩ := updateTrustedRoots_ok rejects w cm msps h
  constructor
  · rw [hsrv]
    simp [GRPCServer.SetClientRootCAs, hrej]
  · rw [hcs] at hrej
    obtain ⟨h1, h2, -⟩ := foldl_addMSP (appOrgMSPs cm) (ordOrgMSPs cm) msps
      ⟨[], [], (w.log Level.Debug ("updating root CAs for channel [" ++ cm.ChainID ++ "]")).trace⟩
    simp only [List.nil_append] at h1 h2
    unfold updateTrustedRoots
    simp only [h]
    rw [h1, h2]
    simp only [GRPCServer.SetClientRootCAs, World.log, hrej, Outcome.state]
    exact ⟨_, _, rfl⟩

/-- C6: the callback built in `Start` does nothing unless mutual TLS is
required.  When `grpcServer.MutualTLSRequired()` is false the callback returns
with the server, the trust state and the trace as they were, so that
`SetClientRootCAs` is not called.  When it is true the callback is
`updateTrustedRoots` on the bundle, run after one debug line: it ends as
`updateTrustedRoots` does, with the same trust state, the same server and the
same lists handed to `SetClientRootCAs`. -/
theorem tlsCallback_effect (rejects : List Cert → Option String) (w : World)
    (bundle : Resources) :
    (w.srv.MutualTLSRequired = false →
      tlsCallback rejects w bundle = Outcome.returned w () ∧
      pushedRoots (tlsCallback rejects w bundle).state.trace = pushedRoots w.trace) ∧
    (w.srv.MutualTLSRequired = true →
      tlsCallback rejects w bundle =
        updateTrustedRoots rejects (w.log Level.Debug "Executing callback to update root CAs")
          bundle ∧
      (tlsCallback rejects w bundle).isReturned =
        (updateTrustedRoots rejects w bundle).isReturned ∧
      (tlsCallback rejects w bundle).state.rootCASupport =
        (updateTrustedRoots rejects w bundle).state.rootCASupport ∧
      (tlsCallback rejects w bundle).state.srv = (updateTrustedRoots rejects w bundle).state.srv ∧
      pushedRoots (tlsCallback rejects w bundle).state.trace =
        pushedRoots (updateTrustedRoots rejects w bundle).state.trace) := by
  constructor
  · intro hm
    have : tlsCallback rejects w bundle = Outcome.returned w () := by
      unfold tlsCallback
      simp [hm]
    exact ⟨this, by rw [this]; rfl⟩
  · intro hm
    have : tlsCallback rejects w bundle =
        updateTrustedRoots rejects (w.log Level.Debug "Executing callback to update root CAs")
          bundle := by
      unfold tlsCallback
      simp [hm]
    rw [this]
    exact ⟨rfl, updateTrustedRoots_log rejects w bundle _ _⟩

/-- Without mutual TLS the callback leaves the sample state alone; with mutual
TLS it stores what `updateTrustedRoots` stores. -/
theorem tlsCallback_effect_witness :
    (plainWorld.srv.MutualTLSRequired = false ∧ sampleWorld.srv.MutualTLSRequired = true) ∧
    tlsCallback acceptAll plainWorld sampleConfig = Outcome.returned plainWorld () ∧
    (tlsCallback acceptAll sampleWorld sampleConfig).state.rootCASupport =
      (updateTrustedRoots acceptAll sampleWorld sampleConfig).state.rootCASupport :=
  ⟨⟨rfl, rfl⟩, ((tlsCallback_effect acceptAll plainWorld sampleConfig).1 rfl).1,
    ((tlsCallback_effect acceptAll sampleWorld sampleConfig).2 rfl).2.2.1⟩

/-- C7: a rejected push is not fatal.  Whenever `updateTrustedRoots` hands a
list to `SetClientRootCAs` and that call returns an error, `updateTrustedRoots`
still returns (no panic, no exit), its last act is a line at level warning, and
the trusted client roots of the transport layer are those in effect before the
call. -/
theorem rejected_push_not_fatal (rejects : List Cert → Option String) (w : World)
    (cm : Resources) (roots : List Cert) (err : String)
    (hpush : pushedRoots (updateTrustedRoots rejects w cm).state.trace =
      pushedRoots w.trace ++ [roots])
    (hrej : (w.srv.SetClientRootCAs rejects roots).2 = some err) :
    (updateTrustedRoots rejects w cm).isReturned = true ∧
    (updateTrustedRoots rejects w cm).state.srv.clientRootCAs = w.srv.clientRootCAs ∧
    ∃ t msg, (updateTrustedRoots rejects w cm).state.trace = t ++ [Event.log Level.Warning msg] := by
  cases hG : cm.GetMSPs with
  | error e =>
    rw [updateTrustedRoots_error rejects w cm e hG] at hpush
    simp [Outcome.state, World.log, pushedRoots_append, pushedRoots] at hpush
  | ok msps =>
    obtain ⟨hret, -, hp, -⟩ := updateTrustedRoots_ok rejects w cm msps hG
    rw [hp] at hpush
    have hroots : trustedRoots (updateTrustedRoots rejects w cm).state.rootCASupport = roots := by
      simpa using hpush
    have hr : rejects (trustedRoots (updateTrustedRoots rejects w cm).state.rootCASupport) =
        some err := by
      rw [hroots]
      unfold GRPCServer.SetClientRootCAs at hrej
      cases hx : rejects roots with
      | none => rw [hx] at hrej; exact Option.noConfusion hrej
      | some e => rw [hx] at hrej; exact hrej
    obtain ⟨hsrv, htr⟩ := updateTrustedRoots_rejected rejects w cm msps err hG hr
    exact ⟨hret, by rw [hsrv], htr⟩

/-- The sample configuration on a transport layer that refuses every list: the
call returns and the trusted client roots stay empty. -/
theorem rejected_push_not_fatal_witness :
    (pushedRoots (updateTrustedRoots rejectAll sampleWorld sampleConfig).state.trace =
        pushedRoots sampleWorld.trace ++ [[[3], [1], [2], [9]]] ∧
      (sampleWorld.srv.SetClientRootCAs rejectAll [[3], [1], [2], [9]]).2 = some "bad certificate") ∧
    (updateTrustedRoots rejectAll sampleWorld sampleConfig).isReturned = true ∧
    (updateTrustedRoots rejectAll sampleWorld sampleConfig).state.srv.clientRootCAs = [] :=
  ⟨⟨by decide, rfl⟩,
    (rejected_push_not_fatal rejectAll sampleWorld sampleConfig [[3], [1], [2], [9]]
      "bad certificate" (by decide) rfl).1,
    (rejected_push_not_fatal rejectAll sampleWorld sampleConfig [[3], [1], [2], [9]]
      "bad certificate" (by decide) rfl).2.1⟩

/-! ## Bootstrap of the system channel -/

/-- A store without channel IDs has no ledger for any channel. -/
theorem get_of_ChainIDs_nil (lf : Factory) (h : lf.ChainIDs = []) (chainID : String) :
    lf.ledgers.get chainID = none := by
  have : lf.ledgers.entries = [] := by
    simpa [Factory.ChainIDs, GoMap.keys] using h
  simp [GoMap.get, this]

/-- The switch ends in a block exactly when the configured method yields one;
either way it leaves the store alone and adds one event, no ledger call. -/
theorem obtainGenesisBlock_spec (env : Env) (conf : TopLevel) (s : Boot) :
    (∃ G e, ObtainsGenesis env conf G ∧ e.isGenesis = true ∧
        obtainGenesisBlock env conf s = Outcome.returned (s.record e) G) ∨
    ((∀ G, ¬ ObtainsGenesis env conf G) ∧
      ∃ e msg, (e.isGenesis = true ∨ ∃ m, e = Event.log Level.Panic m) ∧
        obtainGenesisBlock env conf s = Outcome.panicked (s.record e) msg) := by
  unfold obtainGenesisBlock ObtainsGenesis
  by_cases hp : conf.General.GenesisMethod = "provisional"
  · have hf : conf.General.GenesisMethod ≠ "file" := by rw [hp]; decide
    cases hg : env.GenesisBlockForChannel conf.General.GenesisProfile conf.General.SystemChannel with
    | ok b =>
      left
      exact ⟨b, Event.GenesisBlockForChannel conf.General.GenesisProfile conf.General.SystemChannel,
        Or.inl ⟨hp, rfl⟩, rfl, by simp [hp]⟩
    | error m =>
      right
      refine ⟨?_, Event.GenesisBlockForChannel conf.General.GenesisProfile conf.General.SystemChannel,
        m, Or.inl rfl, by simp [hp]⟩
      intro G hG
      rcases hG with ⟨-, h⟩ | ⟨h, -⟩
      · exact Except.noConfusion h
      · exact hf h
  · by_cases hf : conf.General.GenesisMethod = "file"
    · cases hg : env.GenesisBlock conf.General.GenesisFile with
      | ok b =>
        left
        exact ⟨b, Event.GenesisBlock conf.General.GenesisFile, Or.inr ⟨hf, rfl⟩, rfl, by simp [hp, hf]⟩
      | error m =>
        right
        refine ⟨?_, Event.GenesisBlock conf.General.GenesisFile, m, Or.inl rfl, by simp [hp, hf]⟩
        intro G hG
        rcases hG with ⟨h, -⟩ | ⟨-, h⟩
        · exact hp h
        · exact Except.noConfusion h
    · right
      refine ⟨?_, Event.log Level.Panic ("Unknown genesis method:" ++ conf.General.GenesisMethod),
        "Unknown genesis method:" ++ conf.General.GenesisMethod, Or.inr ⟨_, rfl⟩, by simp [hp, hf]⟩
      intro G hG
      rcases hG with ⟨h, -⟩ | ⟨h, -⟩
      · exact hp h
      · exact hf h

theorem ObtainsGenesis_unique (env : Env) (conf : TopLevel) (G G2 : Block)
    (h : ObtainsGenesis env conf G) (h2 : ObtainsGenesis env conf G2) : G = G2 := by
  rcases h with ⟨hp, hg⟩ | ⟨hf, hg⟩ <;> rcases h2 with ⟨hp2, hg2⟩ | ⟨hf2, hg2⟩
  · rw [hg] at hg2; exact Except.ok.inj hg2
  · rw [hp] at hf2; exact absurd hf2 (by decide)
  · rw [hf] at hp2; exact absurd hp2 (by decide)
  · rw [hg] at hg2; exact Except.ok.inj hg2

/-- Without a genesis block the bootstrap panics before any ledger call. -/
theorem bootstrap_no_genesis (env : Env) (conf : TopLevel) (s : Boot)
    (h : ∀ G, ¬ ObtainsGenesis env conf G) :
    ∃ e msg, (e.isGenesis = true ∨ ∃ m, e = Event.log Level.Panic m) ∧
      initializeBootstrapChannel env conf s =
        Outcome.panicked ((s.record Event.initializeBootstrapChannel).record e) msg := by
  rcases obtainGenesisBlock_spec env conf (s.record Event.initializeBootstrapChannel) with
    ⟨G, -, hG, -, -⟩ | ⟨-, e, msg, he, heq⟩
  · exact absurd hG (h G)
  · refine ⟨e, msg, he, ?_⟩
    unfold initializeBootstrapChannel
    rw [heq]

/-- With the genesis block `G` the bootstrap goes on to the chain ID, to
`GetOrCreate` and to `Append`, and stops at the first of them that fails. -/
theorem bootstrap_with_genesis (env : Env) (conf : TopLevel) (s : Boot) (G : Block)
    (h : ObtainsGenesis env conf G) :
    ∃ e, e.isGenesis = true ∧
      (∀ err, env.GetChainIDFromBlock G = Except.error err →
        initializeBootstrapChannel env conf s =
          Outcome.exited
            ⟨s.lf, s.trace ++ [Event.initializeBootstrapChannel, e,
              Event.log Level.Fatal ("Failed to parse chain ID from genesis block:" ++ err)]⟩ 1) ∧
      (∀ chainID err, env.GetChainIDFromBlock G = Except.ok chainID →
        env.GetOrCreateErr s.lf chainID = some err →
        initializeBootstrapChannel env conf s =
          Outcome.exited
            ⟨s.lf, s.trace ++ [Event.initializeBootstrapChannel, e, Event.GetOrCreate chainID,
              Event.log Level.Fatal ("Failed to create the system chain:" ++ err)]⟩ 1) ∧
      (∀ chainID err, env.GetChainIDFromBlock G = Except.ok chainID →
        env.GetOrCreateErr s.lf chainID = none →
        env.AppendErr (s.lf.GetOrCreate none chainID).1 chainID G = some err →
        initializeBootstrapChannel env conf s =
          Outcome.exited
            ⟨(s.lf.GetOrCreate none chainID).1,
              s.trace ++ [Event.initializeBootstrapChannel, e, Event.GetOrCreate chainID,
                Event.Append chainID G,
                Event.log Level.Fatal ("Could not write genesis block to ledger:" ++ err)]⟩ 1) ∧
      (∀ chainID, env.GetChainIDFromBlock G = Except.ok chainID →
        env.GetOrCreateErr s.lf chainID = none →
        env.AppendErr (s.lf.GetOrCreate none chainID).1 chainID G = none →
        initializeBootstrapChannel env conf s =
          Outcome.returned
            ⟨((s.lf.GetOrCreate none chainID).1.Append none chainID G).1,
              s.trace ++ [Event.initializeBootstrapChannel, e, Event.GetOrCreate chainID,
                Event.Append chainID G]⟩ ()) := by
  rcases obtainGenesisBlock_spec env conf (s.record Event.initializeBootstrapChannel) with
    ⟨G2, e, hG2, he, heq⟩ | ⟨hno, -⟩
  · have hGG : G2 = G := ObtainsGenesis_unique env conf G2 G hG2 h
    subst hGG
    refine ⟨e, he, ?_, ?_, ?_, ?_⟩
    · intro err hid
      unfold initializeBootstrapChannel
      rw [heq]
      simp [hid, Boot.record]
    · intro chainID err hid hc
      unfold initializeBootstrapChannel
      rw [heq]
      simp [hid, hc, Boot.record, Factory.GetOrCreate]
    · intro chainID err hid hc ha
      have hlf : (s.lf.GetOrCreate none chainID).2 = none := by
        unfold Factory.GetOrCreate
        cases s.lf.ledgers.get chainID <;> rfl
      unfold initializeBootstrapChannel
      rw [heq]
      simp [hid, hc, ha, hlf, Boot.record, Factory.Append]
    · intro chainID hid hc ha
      have hlf : (s.lf.GetOrCreate none chainID).2 = none := by
        unfold Factory.GetOrCreate
        cases s.lf.ledgers.get chainID <;> rfl
      unfold initializeBootstrapChannel
      rw [heq]
      simp [hid, hc, ha, hlf, Boot.record, Factory.Append]
  · exact absurd h (hno G)

theorem OnlyLogsAdded.refl (trace : List Event) : OnlyLogsAdded trace trace :=
  ⟨[], by simp, by simp⟩

theorem OnlyLogsAdded.log (trace t : List Event) (level : Level) (msg : String)
    (h : OnlyLogsAdded trace t) : OnlyLogsAdded trace (t ++ [Event.log level msg]) := by
  obtain ⟨extra, rfl, hx⟩ := h
  refine ⟨extra ++ [Event.log level msg], by simp, ?_⟩
  intro e he
  rcases List.mem_append.mp he with h1 | h1
  · exact hx e h1
  · exact ⟨level, msg, by simpa using h1⟩

theorem OnlyLogsAdded.count (trace t : List Event) (h : OnlyLogsAdded trace t) (e : Event)
    (he : ∀ level msg, e ≠ Event.log level msg) : occurrences e t = occurrences e trace := by
  obtain ⟨extra, rfl, hx⟩ := h
  have hnot : e ∉ extra := by
    intro hm
    obtain ⟨level, msg, hl⟩ := hx e hm
    exact he level msg hl
  unfold occurrences
  rw [List.count_append, List.count_eq_zero_of_not_mem hnot, Nat.add_zero]

theorem OnlyLogsAdded.filter (trace t : List Event) (h : OnlyLogsAdded trace t)
    (p : Event → Bool) (hp : ∀ level msg, p (Event.log level msg) = false) :
    t.filter p = trace.filter p := by
  obtain ⟨extra, rfl, hx⟩ := h
  rw [List.filter_append]
  have : extra.filter p = [] := by
    rw [List.filter_eq_nil_iff]
    intro e he
    obtain ⟨level, msg, rfl⟩ := hx e he
    simp [hp]
  rw [this, List.append_nil]

theorem createTempDir_logs (env : Env) (dirPrefix : String) (trace : List Event) :
    OnlyLogsAdded trace (createTempDir env dirPrefix trace).state := by
  unfold createTempDir
  cases env.TempDir dirPrefix with
  | error err => exact OnlyLogsAdded.log _ _ _ _ (OnlyLogsAdded.refl trace)
  | ok d => exact OnlyLogsAdded.refl trace

theorem createSubDir_logs (env : Env) (parent sub : String) (trace : List Event) :
    OnlyLogsAdded trace (createSubDir env parent sub trace).state := by
  unfold createSubDir
  cases hst : env.Stat (env.Join parent sub) with
  | error isNotExist =>
    cases isNotExist with
    | false => simpa [hst, Outcome.state] using OnlyLogsAdded.refl trace
    | true =>
      cases hm : env.Mkdir (env.Join parent sub) with
      | none => simpa [hst, hm, Outcome.state] using OnlyLogsAdded.refl trace
      | some err =>
        simpa [hst, hm, Outcome.state] using OnlyLogsAdded.log _ _ Level.Panic
          ("Error creating sub dir:" ++ err) (OnlyLogsAdded.refl trace)
  | ok u =>
    simpa [hst, Outcome.state] using OnlyLogsAdded.log _ _ Level.Debug
      ("Found " ++ ChainsDir ++ " sub-dir and using it") (OnlyLogsAdded.refl trace)

theorem OnlyLogsAdded.trans (a b c : List Event) (h1 : OnlyLogsAdded a b)
    (h2 : OnlyLogsAdded b c) : OnlyLogsAdded a c := by
  obtain ⟨x, rfl, hx⟩ := h1
  obtain ⟨y, rfl, hy⟩ := h2
  refine ⟨x ++ y, by simp, ?_⟩
  intro e he
  rcases List.mem_append.mp he with h | h
  · exact hx e h
  · exact hy e h

theorem ledgerDir_logs (env : Env) (conf : TopLevel) (trace : List Event) :
    OnlyLogsAdded trace (ledgerDir env conf trace).state := by
  unfold ledgerDir
  by_cases hl : conf.FileLedger.Location = ""
  · have h := createTempDir_logs env conf.FileLedger.Prefix trace
    simp only [hl, if_true]
    cases hc : createTempDir env conf.FileLedger.Prefix trace with
    | returned t d =>
      rw [hc] at h
      exact OnlyLogsAdded.log _ _ _ _ h
    | panicked t m => rw [hc] at h; exact h
    | exited t c => rw [hc] at h; exact h
  · simp only [hl, if_false]
    exact OnlyLogsAdded.log _ _ _ _ (OnlyLogsAdded.refl trace)

theorem createLedgerFactory_logs (env : Env) (conf : TopLevel) (trace : List Event) :
    OnlyLogsAdded trace (createLedgerFactory env conf trace).state := by
  have hd := ledgerDir_logs env conf trace
  unfold createLedgerFactory
  by_cases hf : conf.General.LedgerType = "file"
  · simp only [hf, if_true]
    cases hc : ledgerDir env conf trace with
    | returned t d =>
      rw [hc] at hd
      have hs := createSubDir_logs env d ChainsDir t
      simp only [Outcome.state] at hd
      cases hc2 : createSubDir env d ChainsDir t with
      | returned t2 r =>
        rw [hc2] at hs
        simpa [hc2, Outcome.state] using OnlyLogsAdded.trans _ _ _ hd hs
      | panicked t2 m =>
        rw [hc2] at hs
        simpa [hc2, Outcome.state] using OnlyLogsAdded.trans _ _ _ hd hs
      | exited t2 c =>
        rw [hc2] at hs
        simpa [hc2, Outcome.state] using OnlyLogsAdded.trans _ _ _ hd hs
    | panicked t m => rw [hc] at hd; simpa [Outcome.state] using hd
    | exited t c => rw [hc] at hd; simpa [Outcome.state] using hd
  · by_cases hj : conf.General.LedgerType = "json"
    · simp only [hf, hj, if_true, if_false]
      cases hc : ledgerDir env conf trace with
      | returned t d => rw [hc] at hd; simpa [Outcome.state] using hd
      | panicked t m => rw [hc] at hd; simpa [Outcome.state] using hd
      | exited t c => rw [hc] at hd; simpa [Outcome.state] using hd
    · simp only [hf, hj, if_false]
      exact OnlyLogsAdded.refl trace

/-- The registrar step once the ledger store is there and has no channel. -/
theorem registrar_of_empty (env : Env) (conf : TopLevel) (trace t : List Event)
    (lf : Factory) (ld : String)
    (hlf : createLedgerFactory env conf trace = Outcome.returned t (lf, ld))
    (hempty : lf.ChainIDs = []) :
    initializeMultichannelRegistrar env conf trace =
      match initializeBootstrapChannel env conf ⟨lf, t⟩ with
      | Outcome.panicked s msg => Outcome.panicked s.trace msg
      | Outcome.exited s code => Outcome.exited s.trace code
      | Outcome.returned s _ =>
        Outcome.returned (s.trace ++ [Event.NewRegistrar])
          { ledgerFactory := s.lf, consenters := registeredConsenters } := by
  unfold initializeMultichannelRegistrar
  rw [hlf]
  simp only [hempty, List.length_nil, if_true]
  rfl

/-- The registrar step once the ledger store is there and has a channel. -/
theorem registrar_of_nonempty (env : Env) (conf : TopLevel) (trace t : List Event)
    (lf : Factory) (ld : String)
    (hlf : createLedgerFactory env conf trace = Outcome.returned t (lf, ld))
    (hne : lf.ChainIDs ≠ []) :
    initializeMultichannelRegistrar env conf trace =
      Outcome.returned
        (t ++ [Event.log Level.Info "Not bootstrapping because of existing chains",
          Event.NewRegistrar])
        { ledgerFactory := lf, consenters := registeredConsenters } := by
  have hlen : ¬ lf.ChainIDs.length = 0 := fun h => hne (List.length_eq_zero.mp h)
  unfold initializeMultichannelRegistrar
  rw [hlf]
  simp only [hlen, if_false, List.append_assoc, List.singleton_append]
  rfl

/-- Whatever way the bootstrap ends, its trace goes on with the entry into
`initializeBootstrapChannel`, once, and with no `NewRegistrar`. -/
theorem bootstrap_trace (env : Env) (conf : TopLevel) (s : Boot) :
    ∃ rest, (initializeBootstrapChannel env conf s).state.trace =
        s.trace ++ Event.initializeBootstrapChannel :: rest ∧
      Event.initializeBootstrapChannel ∉ rest ∧ Event.NewRegistrar ∉ rest := by
  by_cases hG : ∃ G, ObtainsGenesis env conf G
  · obtain ⟨G, hG⟩ := hG
    obtain ⟨e, he, p1, p2, p3, p4⟩ := bootstrap_with_genesis env conf s G hG
    have he1 : e ≠ Event.initializeBootstrapChannel := by
      intro h; rw [h] at he; exact Bool.noConfusion he
    have he2 : e ≠ Event.NewRegistrar := by
      intro h; rw [h] at he; exact Bool.noConfusion he
    cases hid : env.GetChainIDFromBlock G with
    | error err =>
      rw [p1 err hid]
      exact ⟨_, rfl, by simp [he1.symm], by simp [he2.symm]⟩
    | ok chainID =>
      cases hc : env.GetOrCreateErr s.lf chainID with
      | some err =>
        rw [p2 chainID err hid hc]
        exact ⟨_, rfl, by simp [he1.symm], by simp [he2.symm]⟩
      | none =>
        cases ha : env.AppendErr (s.lf.GetOrCreate none chainID).1 chainID G with
        | some err =>
          rw [p3 chainID err hid hc ha]
          exact ⟨_, rfl, by simp [he1.symm], by simp [he2.symm]⟩
        | none =>
          rw [p4 chainID hid hc ha]
          exact ⟨_, rfl, by simp [he1.symm], by simp [he2.symm]⟩
  · have hno : ∀ G, ¬ ObtainsGenesis env conf G := fun G h => hG ⟨G, h⟩
    obtain ⟨e, msg, he, heq⟩ := bootstrap_no_genesis env conf s hno
    have he1 : e ≠ Event.initializeBootstrapChannel := by
      rcases he with he | ⟨m, rfl⟩
      · intro h; rw [h] at he; exact Bool.noConfusion he
      · intro h; exact Event.noConfusion h
    have he2 : e ≠ Event.NewRegistrar := by
      rcases he with he | ⟨m, rfl⟩
      · intro h; rw [h] at he; exact Bool.noConfusion he
      · intro h; exact Event.noConfusion h
    rw [heq]
    exact ⟨[e], by simp [Outcome.state, Boot.record], by simp [he1.symm], by simp [he2.symm]⟩

/-- C8: the bootstrap scenario.  On an empty ledger store, with a genesis
block `G` obtained by the configured genesis method whose embedded channel
identifier is `chainID` (`system` in the scenario), and with `GetOrCreate` and
`Append` succeeding, `initializeBootstrapChannel` returns and leaves the store
with the one ledger of `chainID`, of height 1, whose block 0 is `G`. -/
theorem bootstrap_scenario (env : Env) (conf : TopLevel) (s : Boot) (G : Block)
    (chainID : String)
    (hempty : s.lf.ChainIDs = [])
    (hG : ObtainsGenesis env conf G)
    (hid : env.GetChainIDFromBlock G = Except.ok chainID)
    (hcreate : env.GetOrCreateErr s.lf chainID = none)
    (happend : env.AppendErr (s.lf.GetOrCreate none chainID).1 chainID G = none) :
    ∃ s2, initializeBootstrapChannel env conf s = Outcome.returned s2 () ∧
      s2.lf.ChainIDs = [chainID] ∧
      s2.lf.Height chainID = some 1 ∧
      s2.lf.blockAt chainID 0 = some G := by
  obtain ⟨e, -, -, -, -, p4⟩ := bootstrap_with_genesis env conf s G hG
  have hget := get_of_ChainIDs_nil s.lf hempty chainID
  have hent : s.lf.ledgers.entries = [] := by
    simpa [Factory.ChainIDs, GoMap.keys] using hempty
  refine ⟨_, p4 chainID hid hcreate happend, ?_, ?_, ?_⟩
  · simp [Factory.ChainIDs, GoMap.keys, Factory.Append, Factory.GetOrCreate, hget, GoMap.set, hent]
  · simp [Factory.Height, Factory.Append, Factory.GetOrCreate, hget, GoMap.get_set_self]
  · simp [Factory.blockAt, Factory.Append, Factory.GetOrCreate, hget, GoMap.get_set_self]

/-- The default deployment on an empty store: the ledger of `system` has
height 1 and block 0 is the genesis block. -/
theorem bootstrap_scenario_witness :
    (emptyBoot.lf.ChainIDs = [] ∧ ObtainsGenesis sampleEnv sampleConf sampleGenesis ∧
      sampleEnv.GetChainIDFromBlock sampleGenesis = Except.ok "system") ∧
    ∃ s2, initializeBootstrapChannel sampleEnv sampleConf emptyBoot = Outcome.returned s2 () ∧
      s2.lf.ChainIDs = ["system"] ∧
      s2.lf.Height "system" = some 1 ∧
      s2.lf.blockAt "system" 0 = some sampleGenesis :=
  ⟨⟨rfl, Or.inl ⟨rfl, rfl⟩, rfl⟩,
    bootstrap_scenario sampleEnv sampleConf emptyBoot sampleGenesis "system" rfl
      (Or.inl ⟨rfl, rfl⟩) rfl rfl rfl⟩

/-- C9: every failure during bootstrap is fatal.  `initializeBootstrapChannel`
returns exactly when the genesis method is `provisional` or `file` and yields a
block, the chain ID is extracted from that block, `GetOrCreate` succeeds and
`Append` succeeds.  An unknown genesis method ends in a panic and an
unparsable chain ID in an exit with code 1, both with the ledger store as it
was and with neither `GetOrCreate` nor `Append` called; a failing `GetOrCreate`
ends in an exit before `Append` is called, and a failing `Append` in an exit.
When the bootstrap run by `initializeMultichannelRegistrar` does not return,
neither does `initializeMultichannelRegistrar`, and no registrar is made. -/
theorem bootstrap_failure_is_fatal (env : Env) (conf : TopLevel) (s : Boot) :
    ((initializeBootstrapChannel env conf s).isReturned = true ↔
      ∃ G chainID, ObtainsGenesis env conf G ∧
        env.GetChainIDFromBlock G = Except.ok chainID ∧
        env.GetOrCreateErr s.lf chainID = none ∧
        env.AppendErr (s.lf.GetOrCreate none chainID).1 chainID G = none) ∧
    (conf.General.GenesisMethod ≠ "provisional" → conf.General.GenesisMethod ≠ "file" →
      ∃ msg m, initializeBootstrapChannel env conf s =
        Outcome.panicked
          ⟨s.lf, s.trace ++ [Event.initializeBootstrapChannel, Event.log Level.Panic m]⟩ msg) ∧
    (∀ G err, ObtainsGenesis env conf G → env.GetChainIDFromBlock G = Except.error err →
      ∃ e m, e.isGenesis = true ∧ initializeBootstrapChannel env conf s =
        Outcome.exited
          ⟨s.lf, s.trace ++ [Event.initializeBootstrapChannel, e, Event.log Level.Fatal m]⟩ 1) ∧
    (∀ G chainID err, ObtainsGenesis env conf G →
      env.GetChainIDFromBlock G = Except.ok chainID →
      env.GetOrCreateErr s.lf chainID = some err →
      ∃ s2 e m, e.isGenesis = true ∧
        initializeBootstrapChannel env conf s = Outcome.exited s2 1 ∧
        s2.trace = s.trace ++ [Event.initializeBootstrapChannel, e, Event.GetOrCreate chainID,
          Event.log Level.Fatal m]) ∧
    (∀ G chainID err, ObtainsGenesis env conf G →
      env.GetChainIDFromBlock G = Except.ok chainID →
      env.GetOrCreateErr s.lf chainID = none →
      env.AppendErr (s.lf.GetOrCreate none chainID).1 chainID G = some err →
      ∃ s2, initializeBootstrapChannel env conf s = Outcome.exited s2 1) ∧
    (∀ (trace t : List Event) (lf : Factory) (ld : String),
      createLedgerFactory env conf trace = Outcome.returned t (lf, ld) →
      lf.ChainIDs = [] →
      (initializeBootstrapChannel env conf ⟨lf, t⟩).isReturned = false →
      (initializeMultichannelRegistrar env conf trace).isReturned = false ∧
      occurrences Event.NewRegistrar (initializeMultichannelRegistrar env conf trace).state =
        occurrences Event.NewRegistrar trace) := by
  refine ⟨?_, ?_, ?_, ?_, ?_, ?_⟩
  · constructor
    · intro hret
      by_cases hG : ∃ G, ObtainsGenesis env conf G
      · obtain ⟨G, hG⟩ := hG
        obtain ⟨e, -, p1, p2, p3, -⟩ := bootstrap_with_genesis env conf s G hG
        cases hid : env.GetChainIDFromBlock G with
        | error err =>
          rw [p1 err hid] at hret
          exact Bool.noConfusion hret
        | ok chainID =>
          cases hc : env.GetOrCreateErr s.lf chainID with
          | some err =>
            rw [p2 chainID err hid hc] at hret
            exact Bool.noConfusion hret
          | none =>
            cases ha : env.AppendErr (s.lf.GetOrCreate none chainID).1 chainID G with
            | some err =>
              rw [p3 chainID err hid hc ha] at hret
              exact Bool.noConfusion hret
            | none => exact ⟨G, chainID, hG, hid, hc, ha⟩
      · obtain ⟨e, msg, -, heq⟩ :=
          bootstrap_no_genesis env conf s (fun G h => hG ⟨G, h⟩)
        rw [heq] at hret
        exact Bool.noConfusion hret
    · rintro ⟨G, chainID, hG, hid, hc, ha⟩
      obtain ⟨e, -, -, -, -, p4⟩ := bootstrap_with_genesis env conf s G hG
      rw [p4 chainID hid hc ha]
      rfl
  · intro hp hf
    refine ⟨"Unknown genesis method:" ++ conf.General.GenesisMethod,
      "Unknown genesis method:" ++ conf.General.GenesisMethod, ?_⟩
    unfold initializeBootstrapChannel obtainGenesisBlock
    simp [hp, hf, Boot.record]
  · intro G err hG hid
    obtain ⟨e, he, p1, -, -, -⟩ := bootstrap_with_genesis env conf s G hG
    exact ⟨e, _, he, p1 err hid⟩
  · intro G chainID err hG hid hc
    obtain ⟨e, he, -, p2, -, -⟩ := bootstrap_with_genesis env conf s G hG
    exact ⟨_, e, _, he, p2 chainID err hid hc, rfl⟩
  · intro G chainID err hG hid hc ha
    obtain ⟨e, -, -, -, p3, -⟩ := bootstrap_with_genesis env conf s G hG
    exact ⟨_, p3 chainID err hid hc ha⟩
  · intro trace t lf ld hlf hempty hnot
    have hlogs := createLedgerFactory_logs env conf trace
    rw [hlf] at hlogs
    have hcount : occurrences Event.NewRegistrar t = occurrences Event.NewRegistrar trace :=
      OnlyLogsAdded.count trace t hlogs _ (fun _ _ h => Event.noConfusion h)
    obtain ⟨rest, htr, -, hreg⟩ := bootstrap_trace env conf ⟨lf, t⟩
    have hc2 : occurrences Event.NewRegistrar
        (initializeBootstrapChannel env conf ⟨lf, t⟩).state.trace =
        occurrences Event.NewRegistrar trace := by
      rw [htr, ← hcount]
      unfold occurrences
      rw [List.count_append, List.count_cons_of_ne (by decide),
        List.count_eq_zero_of_not_mem hreg, Nat.add_zero]
    rw [registrar_of_empty env conf trace t lf ld hlf hempty]
    cases hb : initializeBootstrapChannel env conf ⟨lf, t⟩ with
    | returned s2 u => rw [hb] at hnot; exact Bool.noConfusion hnot
    | panicked s2 msg =>
      rw [hb] at hc2
      exact ⟨rfl, hc2⟩
    | exited s2 code =>
      rw [hb] at hc2
      exact ⟨rfl, hc2⟩

/-- A deployment with the unknown genesis method `remote` panics with the
store untouched, and on the default deployment the bootstrap returns. -/
theorem bootstrap_failure_is_fatal_witness :
    (unknownMethodConf.General.GenesisMethod ≠ "provisional" ∧
      unknownMethodConf.General.GenesisMethod ≠ "file") ∧
    (∃ msg m, initializeBootstrapChannel sampleEnv unknownMethodConf emptyBoot =
      Outcome.panicked
        ⟨emptyBoot.lf,
          emptyBoot.trace ++ [Event.initializeBootstrapChannel, Event.log Level.Panic m]⟩ msg) ∧
    (initializeBootstrapChannel sampleEnv sampleConf emptyBoot).isReturned = true :=
  ⟨⟨by decide, by decide⟩,
    (bootstrap_failure_is_fatal sampleEnv unknownMethodConf emptyBoot).2.1 (by decide) (by decide),
    (bootstrap_failure_is_fatal sampleEnv sampleConf emptyBoot).1.mpr
      ⟨sampleGenesis, "system", Or.inl ⟨rfl, rfl⟩, rfl, rfl, rfl⟩⟩

/-- C10: `initializeMultichannelRegistrar` bootstraps the system channel
exactly when the ledger store has no channel.  Let `createLedgerFactory` return
the store `lf`.  When `lf.ChainIDs()` is empty, `initializeBootstrapChannel` is
entered exactly once, on `lf`, and a registrar is only made after it, on the
store the bootstrap leaves.  When `lf.ChainIDs()` is not empty,
`initializeBootstrapChannel` is not entered, no genesis block is made,
`GetOrCreate` and `Append` are not called, and the registrar is made on `lf`
as it is. -/
theorem bootstrap_iff_no_channels (env : Env) (conf : TopLevel) (trace t : List Event)
    (lf : Factory) (ld : String)
    (hlf : createLedgerFactory env conf trace = Outcome.returned t (lf, ld)) :
    (lf.ChainIDs = [] →
      occurrences Event.initializeBootstrapChannel
          (initializeMultichannelRegistrar env conf trace).state =
        occurrences Event.initializeBootstrapChannel trace + 1 ∧
      (∀ s2, initializeBootstrapChannel env conf ⟨lf, t⟩ = Outcome.returned s2 () →
        initializeMultichannelRegistrar env conf trace =
          Outcome.returned (s2.trace ++ [Event.NewRegistrar])
            { ledgerFactory := s2.lf, consenters := registeredConsenters }) ∧
      (∀ t2 reg, initializeMultichannelRegistrar env conf trace = Outcome.returned t2 reg →
        ∃ t1, t2 = t1 ++ [Event.NewRegistrar] ∧
          occurrences Event.initializeBootstrapChannel t1 =
            occurrences Event.initializeBootstrapChannel trace + 1 ∧
          occurrences Event.NewRegistrar t1 = occurrences Event.NewRegistrar trace)) ∧
    (lf.ChainIDs ≠ [] →
      ∃ t2 reg, initializeMultichannelRegistrar env conf trace = Outcome.returned t2 reg ∧
        reg.ledgerFactory = lf ∧
        occurrences Event.initializeBootstrapChannel t2 =
          occurrences Event.initializeBootstrapChannel trace ∧
        t2.filter Event.isGenesis = trace.filter Event.isGenesis ∧
        t2.filter Event.isLedgerCall = trace.filter Event.isLedgerCall ∧
        occurrences Event.NewRegistrar t2 = occurrences Event.NewRegistrar trace + 1) := by
  have hlogs := createLedgerFactory_logs env conf trace
  rw [hlf] at hlogs
  simp only [Outcome.state] at hlogs
  have hcb : occurrences Event.initializeBootstrapChannel t =
      occurrences Event.initializeBootstrapChannel trace :=
    OnlyLogsAdded.count trace t hlogs _ (fun _ _ h => Event.noConfusion h)
  have hcr : occurrences Event.NewRegistrar t = occurrences Event.NewRegistrar trace :=
    OnlyLogsAdded.count trace t hlogs _ (fun _ _ h => Event.noConfusion h)
  constructor
  · intro hempty
    obtain ⟨rest, htr, hb, hreg⟩ := bootstrap_trace env conf ⟨lf, t⟩
    have hone : occurrences Event.initializeBootstrapChannel
        (initializeBootstrapChannel env conf ⟨lf, t⟩).state.trace =
        occurrences Event.initializeBootstrapChannel trace + 1 := by
      rw [htr, ← hcb]
      unfold occurrences
      rw [List.count_append, List.count_cons_self, List.count_eq_zero_of_not_mem hb]
    have hzero : occurrences Event.NewRegistrar
        (initializeBootstrapChannel env conf ⟨lf, t⟩).state.trace =
        occurrences Event.NewRegistrar trace := by
      rw [htr, ← hcr]
      unfold occurrences
      rw [List.count_append, List.count_cons_of_ne (by decide),
        List.count_eq_zero_of_not_mem hreg, Nat.add_zero]
    rw [registrar_of_empty env conf trace t lf ld hlf hempty]
    cases hbt : initializeBootstrapChannel env conf ⟨lf, t⟩ with
    | returned s2 u =>
      rw [hbt] at hone hzero
      simp only [Outcome.state] at hone hzero
      refine ⟨?_, ?_, ?_⟩
      · simp only [Outcome.state]
        unfold occurrences at hone ⊢
        rw [List.count_append, hone, List.count_cons_of_ne (by decide), List.count_nil]
      · intro s3 h3
        cases h3
        rfl
      · intro t2 reg h2
        cases h2
        exact ⟨s2.trace, rfl, hone, hzero⟩
    | panicked s2 msg =>
      rw [hbt] at hone
      exact ⟨hone, fun s3 h3 => Outcome.noConfusion h3, fun t2 reg h2 => Outcome.noConfusion h2⟩
    | exited s2 code =>
      rw [hbt] at hone
      exact ⟨hone, fun s3 h3 => Outcome.noConfusion h3, fun t2 reg h2 => Outcome.noConfusion h2⟩
  · intro hne
    refine ⟨_, _, registrar_of_nonempty env conf trace t lf ld hlf hne, rfl, ?_, ?_, ?_, ?_⟩
    · rw [← hcb]
      unfold occurrences
      rw [List.count_append, List.count_cons_of_ne (by decide),
        List.count_cons_of_ne (by decide), List.count_nil, Nat.add_zero]
    · rw [List.filter_append, ← OnlyLogsAdded.filter trace t hlogs Event.isGenesis (fun _ _ => rfl)]
      simp [Event.isGenesis]
    · rw [List.filter_append,
        ← OnlyLogsAdded.filter trace t hlogs Event.isLedgerCall (fun _ _ => rfl)]
      simp [Event.isLedgerCall]
    · rw [← hcr]
      unfold occurrences
      rw [List.count_append, List.count_cons_of_ne (by decide), List.count_cons_self,
        List.count_nil]

/-- The default deployment starts on an empty ram ledger and bootstraps once;
restarted on a store that holds the ledger of `system`, it does not bootstrap. -/
theorem bootstrap_iff_no_channels_witness :
    (createLedgerFactory sampleEnv sampleConf [] = Outcome.returned [] (⟨GoMap.empty⟩, "") ∧
      (⟨GoMap.empty⟩ : Factory).ChainIDs = [] ∧
      createLedgerFactory restartedEnv sampleConf [] =
        Outcome.returned [] (⟨GoMap.empty.set "system" [sampleGenesis]⟩, "") ∧
      (⟨GoMap.empty.set "system" [sampleGenesis]⟩ : Factory).ChainIDs ≠ []) ∧
    occurrences Event.initializeBootstrapChannel
        (initializeMultichannelRegistrar sampleEnv sampleConf []).state = 0 + 1 ∧
    ∃ t2 reg, initializeMultichannelRegistrar restartedEnv sampleConf [] = Outcome.returned t2 reg ∧
      reg.ledgerFactory = ⟨GoMap.empty.set "system" [sampleGenesis]⟩ ∧
      occurrences Event.initializeBootstrapChannel t2 = 0 :=
  ⟨⟨rfl, rfl, rfl, by decide⟩,
    ((bootstrap_iff_no_channels sampleEnv sampleConf [] [] ⟨GoMap.empty⟩ "" rfl).1 rfl).1,
    ((bootstrap_iff_no_channels restartedEnv sampleConf [] []
        ⟨GoMap.empty.set "system" [sampleGenesis]⟩ "" rfl).2 (by decide)).elim
      (fun t2 h => h.elim (fun reg hr => ⟨t2, reg, hr.1, hr.2.1, hr.2.2.1⟩))⟩

/-! ## Trust roots: repetitions, other channels, a failed lookup -/

theorem timesContributed_cons (ids : List String) (c : Cert) (kv : String × MSP)
    (rest : List (String × MSP)) :
    timesContributed ids c (kv :: rest) =
      (if kv.2.GetType = FABRIC ∧ kv.1 ∈ ids then
        kv.2.GetTLSRootCerts.count c + kv.2.GetTLSIntermediateCerts.count c
      else 0) + timesContributed ids c rest := rfl

/-- The list built by the provider loop repeats a certificate as often as the
providers give it. -/
theorem count_contributed (ids : GoMap Unit) (idl : List String)
    (hids : ∀ k, (ids.get k).isSome = true ↔ k ∈ idl) (msps : List (String × MSP))
    (c : Cert) :
    (contributed ids msps).count c = timesContributed idl c msps := by
  induction msps with
  | nil => rfl
  | cons kv rest ih =>
    rw [contributed_cons, timesContributed_cons, List.count_append, ih]
    by_cases hc : kv.2.GetType = FABRIC ∧ (ids.get kv.1).isSome = true
    · have hc2 : kv.2.GetType = FABRIC ∧ kv.1 ∈ idl := ⟨hc.1, (hids kv.1).mp hc.2⟩
      rw [if_pos hc, if_pos hc2, List.count_append]
    · have hc2 : ¬ (kv.2.GetType = FABRIC ∧ kv.1 ∈ idl) :=
        fun h => hc ⟨h.1, (hids kv.1).mpr h.2⟩
      rw [if_neg hc, if_neg hc2, List.count_nil]

/-- A list of certificates is free of repetitions exactly when it holds every
certificate at most once. -/
theorem nodup_iff_count_le_one_cert (l : List Cert) :
    l.Nodup ↔ ∀ c : Cert, l.count c ≤ 1 := by
  rw [List.nodup_iff_count_le_one]
  exact forall_congr' (fun c => by
    have hinst : @List.count _ instBEqOfDecidableEq c l = l.count c := by
      induction l with
      | nil => rfl
      | cons a t ih => simp only [List.count_cons, ih, beq_iff_eq]
    rw [hinst])

/-- C11, as amended: the stored per-channel trust roots are lists that repeat
a certificate as often as it is contributed.  For every configuration of a
channel for which `GetMSPs` succeeds, a certificate occurs in
`AppRootCAsByChain[cid]` exactly as many times as it occurs in the TLS root and
TLS intermediate certificate lists of the FABRIC providers whose key is the ID
of an application organization or of an organization of a consortium, and in
`OrdererRootCAsByChain[cid]` as many times as it occurs in those lists of the
FABRIC providers whose key is the ID of an orderer organization.  So either
stored list is free of repetitions exactly when no certificate is contributed
to it more than once. -/
theorem stored_roots_multiplicity (rejects : List Cert → Option String) (w : World)
    (cm : Resources) (msps : List (String × MSP)) (h : cm.GetMSPs = Except.ok msps) :
    (∀ c : Cert,
      (rootsOf (updateTrustedRoots rejects w cm).state.rootCASupport.AppRootCAsByChain
          cm.ChainID).count c =
        timesContributed (applicationOrgIDs cm ++ consortiumOrgIDs cm) c msps) ∧
    (∀ c : Cert,
      (rootsOf (updateTrustedRoots rejects w cm).state.rootCASupport.OrdererRootCAsByChain
          cm.ChainID).count c =
        timesContributed (ordererOrgIDs cm) c msps) ∧
    ((rootsOf (updateTrustedRoots rejects w cm).state.rootCASupport.AppRootCAsByChain
          cm.ChainID).Nodup ↔
      ∀ c : Cert, timesContributed (applicationOrgIDs cm ++ consortiumOrgIDs cm) c msps ≤ 1) ∧
    ((rootsOf (updateTrustedRoots rejects w cm).state.rootCASupport.OrdererRootCAsByChain
          cm.ChainID).Nodup ↔
      ∀ c : Cert, timesContributed (ordererOrgIDs cm) c msps ≤ 1) := by
  obtain ⟨-, hcs, -, -⟩ := updateTrustedRoots_ok rejects w cm msps h
  have happ : ∀ c : Cert,
      (contributed (appOrgMSPs cm) msps).count c =
        timesContributed (applicationOrgIDs cm ++ consortiumOrgIDs cm) c msps := by
    intro c
    apply count_contributed
    intro k
    rw [isSome_get_appOrgMSPs, List.mem_append]
  have hord : ∀ c : Cert,
      (contributed (ordOrgMSPs cm) msps).count c = timesContributed (ordererOrgIDs cm) c msps := by
    intro c
    exact count_contributed _ _ (isSome_get_ordOrgMSPs cm) msps c
  rw [hcs]
  simp only [rootsOf_set_self]
  refine ⟨happ, hord, ?_, ?_⟩
  · rw [nodup_iff_count_le_one_cert]
    exact forall_congr' (fun c => by rw [happ c])
  · rw [nodup_iff_count_le_one_cert]
    exact forall_congr' (fun c => by rw [hord c])

/-- The sample configuration contributes `[3]` once, and `[3]` is stored once
as an application root of channel `C`. -/
theorem stored_roots_multiplicity_witness :
    sampleConfig.GetMSPs = Except.ok sampleMSPs ∧
    (rootsOf (updateTrustedRoots acceptAll sampleWorld sampleConfig).state.rootCASupport.AppRootCAsByChain
        sampleConfig.ChainID).count [3] = 1 :=
  ⟨rfl, ((stored_roots_multiplicity acceptAll sampleWorld sampleConfig sampleMSPs rfl).1 [3]).trans
    (by decide)⟩

/-- C11 as stated fails: when the two application organizations `O2` and `O3`
of channel `C` use the same TLS root certificate `[3]`, `GetMSPs` succeeds and
`AppRootCAsByChain["C"]` is `[[3], [3]]`, which holds `[3]` twice. -/
theorem stored_roots_repeat_counterexample :
    (∃ msps, sharedRootConfig.GetMSPs = Except.ok msps) ∧
    rootsOf (updateTrustedRoots acceptAll sampleWorld sharedRootConfig).state.rootCASupport.AppRootCAsByChain
        "C" = [[3], [3]] ∧
    (rootsOf (updateTrustedRoots acceptAll sampleWorld sharedRootConfig).state.rootCASupport.AppRootCAsByChain
        "C").count [3] = 2 ∧
    ¬ (rootsOf (updateTrustedRoots acceptAll sampleWorld sharedRootConfig).state.rootCASupport.AppRootCAsByChain
        "C").Nodup :=
  ⟨⟨_, rfl⟩, by decide, by decide, by decide⟩

/-- C12: `updateTrustedRoots` changes only the entry of the channel it
processes.  For every trust state and every configuration, whether `GetMSPs`
succeeds or not, the entries of `AppRootCAsByChain` and of
`OrdererRootCAsByChain` for every channel ID other than that of the
configuration are after the call what they were before it, and so is the
static `ClientRootCAs`. -/
theorem other_channels_untouched (rejects : List Cert → Option String) (w : World)
    (cm : Resources) (ch : String) (hch : ch ≠ cm.ChainID) :
    (updateTrustedRoots rejects w cm).state.rootCASupport.AppRootCAsByChain.get ch =
      w.rootCASupport.AppRootCAsByChain.get ch ∧
    (updateTrustedRoots rejects w cm).state.rootCASupport.OrdererRootCAsByChain.get ch =
      w.rootCASupport.OrdererRootCAsByChain.get ch ∧
    (updateTrustedRoots rejects w cm).state.rootCASupport.ClientRootCAs =
      w.rootCASupport.ClientRootCAs := by
  cases hG : cm.GetMSPs with
  | error err =>
    rw [updateTrustedRoots_error rejects w cm err hG]
    exact ⟨rfl, rfl, rfl⟩
  | ok msps =>
    obtain ⟨-, hcs, -, -⟩ := updateTrustedRoots_ok rejects w cm msps hG
    rw [hcs]
    exact ⟨GoMap.get_set_of_ne _ _ _ _ hch, GoMap.get_set_of_ne _ _ _ _ hch, rfl⟩

/-- After the sample configuration of channel `C`, processing a configuration
of channel `D` leaves the application roots of `C` at `[[3]]`. -/
theorem other_channels_untouched_witness :
    ("C" : String) ≠ otherChannelConfig.ChainID ∧
    (updateTrustedRoots acceptAll (updateTrustedRoots acceptAll sampleWorld sampleConfig).state
        otherChannelConfig).state.rootCASupport.AppRootCAsByChain.get "C" = some [[3]] :=
  ⟨by decide,
    (other_channels_untouched acceptAll
      (updateTrustedRoots acceptAll sampleWorld sampleConfig).state otherChannelConfig "C"
      (by decide)).1.trans (by decide)⟩

/-- C13: a failed membership lookup changes nothing.  When
`MSPManager().GetMSPs()` returns an error, `updateTrustedRoots` returns, having
written one debug line and one error line and nothing else: the trust state,
with `AppRootCAsByChain` and `OrdererRootCAsByChain` and the entry of the
channel being processed, is as it was, the server is as it was, and
`SetClientRootCAs` has not been called. -/
theorem failed_lookup_changes_nothing (rejects : List Cert → Option String) (w : World)
    (cm : Resources) (err : String) (h : cm.GetMSPs = Except.error err) :
    (updateTrustedRoots rejects w cm).isReturned = true ∧
    (updateTrustedRoots rejects w cm).state.rootCASupport = w.rootCASupport ∧
    (updateTrustedRoots rejects w cm).state.srv = w.srv ∧
    (updateTrustedRoots rejects w cm).state.trace =
      w.trace ++
        [Event.log Level.Debug ("updating root CAs for channel [" ++ cm.ChainID ++ "]"),
          Event.log Level.Error
            ("Error getting root CAs for channel " ++ cm.ChainID ++ " (" ++ err ++ ")")] ∧
    pushedRoots (updateTrustedRoots rejects w cm).state.trace = pushedRoots w.trace := by
  rw [updateTrustedRoots_error rejects w cm err h]
  refine ⟨rfl, rfl, rfl, ?_, ?_⟩
  · simp [Outcome.state, World.log]
  · simp [Outcome.state, World.log, pushedRoots_append, pushedRoots]

/-- On a trust state that holds the roots of channel `C`, a configuration of
`C` whose lookup fails leaves the application roots of `C` at `[[3]]` and
hands no further list to `SetClientRootCAs`. -/
theorem failed_lookup_changes_nothing_witness :
    failingConfig.GetMSPs = Except.error "MSP manager not initialized" ∧
    (updateTrustedRoots acceptAll (updateTrustedRoots acceptAll sampleWorld sampleConfig).state
        failingConfig).state.rootCASupport.AppRootCAsByChain.get "C" = some [[3]] ∧
    pushedRoots (updateTrustedRoots acceptAll
        (updateTrustedRoots acceptAll sampleWorld sampleConfig).state failingConfig).state.trace =
      [[[3], [1], [2], [9]]] :=
  ⟨rfl,
    (congrArg (fun cs => cs.AppRootCAsByChain.get "C")
      (failed_lookup_changes_nothing acceptAll
        (updateTrustedRoots acceptAll sampleWorld sampleConfig).state failingConfig
        "MSP manager not initialized" rfl).2.1).trans (by decide),
    (failed_lookup_changes_nothing acceptAll
        (updateTrustedRoots acceptAll sampleWorld sampleConfig).state failingConfig
        "MSP manager not initialized" rfl).2.2.2.2.trans (by decide)⟩

end Orderer
